import Mathlib

/-!
Verification of the configuration-resolution and workflow-compilation layer
of remote-dev-bot (src/lib/config.py and src/scripts/compile.py), as a
shallow embedding in Lean 4.

YAML documents are modelled by the inductive type `Yaml`; Python dicts by
insertion-ordered association lists (`Config`), with `getVal`/`setVal`
mirroring Python dict lookup/assignment (assignment updates the first
matching key in place, otherwise appends — exactly Python's semantics on
its duplicate-free dicts).  File loading is modelled by passing each
layer's parsed content as an `Option Config` (`none` = file absent).
Python exceptions (`ValueError`, `KeyError`, …) are modelled with
`Except`; process I/O (printing, `GITHUB_OUTPUT` writing) is out of scope.
-/

set_option autoImplicit false

namespace RDB

/-- A YAML value as produced by `yaml.safe_load`: scalars, sequences and
string-keyed maps.  (Floating-point scalars do not occur in any of the
configuration keys treated here and are not modelled.) -/
inductive Yaml where
  | str (v : String)
  | int (v : Int)
  | bool (v : Bool)
  | null
  | seq (items : List Yaml)
  | map (entries : List (String × Yaml))

/-- A Python dict with string keys, as an insertion-ordered association list. -/
abbrev Config := List (String × Yaml)

/-- Python dict lookup `d[k]` / `d.get(k)` (first match; real dicts have no
duplicate keys). -/
def getVal : Config → String → Option Yaml
  | [], _ => none
  | (k', v) :: rest, k => if k' = k then some v else getVal rest k

/-- Python dict assignment `d[k] = v`: replace the value of an existing key
in place, otherwise append the new pair at the end. -/
def setVal : Config → String → Yaml → Config
  | [], k, v => [(k, v)]
  | (k', w) :: rest, k, v => if k' = k then (k', v) :: rest else (k', w) :: setVal rest k v

/-- Key list of a dict, in insertion order (`list(d.keys())`). -/
def keys (d : Config) : List String := d.map Prod.fst

/-- Python truthiness (`bool(x)`) of a YAML value: empty string, zero,
`False`, `None`, empty list and empty dict are falsy. -/
def pyTruthy : Yaml → Bool
  | .str v => !(v = "")
  | .int i => !(i = 0)
  | .bool b => b
  | .null => false
  | .seq items => !items.isEmpty
  | .map entries => !entries.isEmpty

mutual

/-- Helper for `deep_merge`: the value stored for one key.  Embeds the branch
`if key in result and isinstance(result[key], dict) and isinstance(value, dict)`
of `deep_merge` (src/lib/config.py lines 27–31): two maps merge recursively,
anything else is replaced by the override value outright. -/
def merge2 : Yaml → Yaml → Yaml
  | .map bm, .map om => .map (deep_merge bm om)
  | _, v => v

/-- Embeds `deep_merge(base, override)` (src/lib/config.py lines 24–32):
start from a copy of `base` and fold the entries of `override` into it. -/
def deep_merge : Config → Config → Config
  | base, [] => base
  | base, (k, v) :: rest =>
      match getVal base k with
      | some bv => deep_merge (setVal base k (merge2 bv v)) rest
      | none => deep_merge (setVal base k v) rest

end

@[simp] theorem getVal_nil (k : String) : getVal [] k = none := rfl

theorem getVal_cons (k' : String) (v : Yaml) (rest : Config) (k : String) :
    getVal ((k', v) :: rest) k = if k' = k then some v else getVal rest k := rfl

theorem getVal_setVal_self (d : Config) (k : String) (v : Yaml) :
    getVal (setVal d k v) k = some v := by
  induction d with
  | nil => simp [setVal, getVal]
  | cons p rest ih =>
    obtain ⟨k', w⟩ := p
    by_cases h : k' = k
    · simp [setVal, getVal, h]
    · simp [setVal, getVal, h, ih]

theorem getVal_setVal_ne (d : Config) (k k₀ : String) (v : Yaml) (h : k ≠ k₀) :
    getVal (setVal d k v) k₀ = getVal d k₀ := by
  induction d with
  | nil => simp [setVal, getVal, h]
  | cons p rest ih =>
    obtain ⟨k', w⟩ := p
    by_cases hk : k' = k
    · subst hk
      simp [setVal, getVal, h]
    · simp [setVal, getVal, hk, ih]

theorem deep_merge_nil (base : Config) : deep_merge base [] = base := rfl

theorem deep_merge_cons (base : Config) (k : String) (v : Yaml) (rest : Config) :
    deep_merge base ((k, v) :: rest) =
      match getVal base k with
      | some bv => deep_merge (setVal base k (merge2 bv v)) rest
      | none => deep_merge (setVal base k v) rest := rfl

/-- Keys absent from the override are untouched by `deep_merge`. -/
theorem deep_merge_getVal_of_not_mem (base ovr : Config) (k : String)
    (h : k ∉ keys ovr) : getVal (deep_merge base ovr) k = getVal base k := by
  induction ovr generalizing base with
  | nil => rfl
  | cons p rest ih =>
    obtain ⟨k', v⟩ := p
    have hk : k' ≠ k := fun he => h (by simp [keys, he])
    have hrest : k ∉ keys rest := fun hm => h (by simp [keys] at hm ⊢; exact Or.inr hm)
    rw [deep_merge_cons]
    cases hb : getVal base k' with
    | some bv => rw [ih _ hrest, getVal_setVal_ne _ _ _ _ hk]
    | none => rw [ih _ hrest, getVal_setVal_ne _ _ _ _ hk]

/-- For a key of a duplicate-free override, the merged value is the override
value, except that two maps merge recursively (`merge2`). -/
theorem deep_merge_getVal_of_mem (base ovr : Config) (k : String) (v : Yaml)
    (hnd : (keys ovr).Nodup) (hv : getVal ovr k = some v) :
    getVal (deep_merge base ovr) k =
      some (match getVal base k with
            | some bv => merge2 bv v
            | none => v) := by
  induction ovr generalizing base with
  | nil => simp [getVal] at hv
  | cons p rest ih =>
    obtain ⟨k', w⟩ := p
    rw [deep_merge_cons]
    by_cases hk : k' = k
    · subst hk
      rw [getVal_cons, if_pos rfl] at hv
      obtain rfl : w = v := by injection hv
      have hnotin : k' ∉ keys rest := (List.nodup_cons.mp hnd).1
      cases hb : getVal base k' with
      | some bv =>
        rw [deep_merge_getVal_of_not_mem _ _ _ hnotin, getVal_setVal_self]
      | none =>
        rw [deep_merge_getVal_of_not_mem _ _ _ hnotin, getVal_setVal_self]
    · rw [getVal_cons, if_neg hk] at hv
      have hnd' : (keys rest).Nodup := (List.nodup_cons.mp hnd).2
      cases hb : getVal base k' with
      | some bv =>
        rw [ih _ hnd' hv, getVal_setVal_ne _ _ _ _ hk]
      | none =>
        rw [ih _ hnd' hv, getVal_setVal_ne _ _ _ _ hk]


/-! ### Command grammar (src/lib/config.py lines 54–94) -/

/-- The payload of the `ValueError`s raised by `parse_command`: either the
bare-trigger rejection or the unknown-mode report.  Both messages embed
`sorted(known_modes)`, carried here as the sorted list. -/
inductive CmdError where
  | bareAgent (validModes : List String)
  | unknownMode (verb : String) (validModes : List String)
deriving DecidableEq, Repr

/-- Lexicographic `<` on code-point sequences — Python's string ordering. -/
def lexLt : List Char → List Char → Bool
  | [], [] => false
  | [], _ :: _ => true
  | _ :: _, [] => false
  | a :: as, b :: bs => if a = b then lexLt as bs else decide (a < b)

/-- `s ≤ t` in Python's string order. -/
def strLe (s t : String) : Bool := !(lexLt t.data s.data)

def insertSorted (x : String) : List String → List String
  | [] => [x]
  | y :: ys => if strLe x y then x :: y :: ys else y :: insertSorted x ys

/-- Python `sorted(...)` over a collection of strings (insertion sort). -/
def sortStrings (l : List String) : List String := l.foldr insertSorted []

/-- Python `text.split("-", 1)`: the first hyphen-delimited segment plus,
when a hyphen is present, everything after the first hyphen. -/
def splitFirstDash : List Char → List Char × Option (List Char)
  | [] => ([], none)
  | c :: cs =>
    if c = '-' then ([], some cs)
    else
      let r := splitFirstDash cs
      (c :: r.1, r.2)

/-- Embeds `parse_command(command_string, known_modes)` (src/lib/config.py
lines 54–94).  `known_modes` (a Python set of the mode-map keys) is carried
as a list; Python string falsiness is emptiness. -/
def parse_command (command_string : String) (known_modes : List String) :
    Except CmdError (String × String) :=
  if command_string = "" then
    .error (.bareAgent (sortStrings known_modes))
  else
    let lowered := command_string.data.map Char.toLower
    let parts := splitFirstDash lowered
    let verb := String.mk parts.1
    if verb ∈ known_modes then
      .ok (verb, String.mk (parts.2.getD []))
    else
      .error (.unknownMode verb (sortStrings known_modes))

/-! ### Character-level lemmas for case normalization -/

theorem char_toNat_ofNat {n : Nat} (h : n.isValidChar) : (Char.ofNat n).toNat = n := by
  simp only [Char.ofNat, Char.ofNatAux, Char.toNat, UInt32.ofNat', UInt32.toNat]
  rw [dif_pos h]
  simp [BitVec.toNat_ofNatLt]

theorem toLower_idem (c : Char) : (c.toLower).toLower = c.toLower := by
  have hdef : ∀ d : Char, d.toLower = if d.toNat ≥ 65 ∧ d.toNat ≤ 90 then Char.ofNat (d.toNat + 32) else d :=
    fun d => rfl
  by_cases h : c.toNat ≥ 65 ∧ c.toNat ≤ 90
  · have h1 : c.toLower = Char.ofNat (c.toNat + 32) := by rw [hdef, if_pos h]
    have hv : (c.toNat + 32).isValidChar := Or.inl (by omega)
    have ht : (Char.ofNat (c.toNat + 32)).toNat = c.toNat + 32 := char_toNat_ofNat hv
    rw [h1, hdef, if_neg (by rw [ht]; omega)]
  · have h1 : c.toLower = c := by rw [hdef, if_neg h]
    rw [h1, h1]

theorem map_toLower_idem (l : List Char) :
    (l.map Char.toLower).map Char.toLower = l.map Char.toLower := by
  rw [List.map_map]
  exact List.map_congr_left (fun c _ => toLower_idem c)

/-- A character already of "lowercase alphanumeric or hyphen" shape (the
shape model aliases are made of) is a fixed point of lowering. -/
def isLowerAlnumHyphen (c : Char) : Bool :=
  (97 ≤ c.toNat && c.toNat ≤ 122) || (48 ≤ c.toNat && c.toNat ≤ 57) || c = '-'

theorem toLower_fixed_of_lowerAlnumHyphen {c : Char} (h : isLowerAlnumHyphen c = true) :
    c.toLower = c := by
  have hdef : c.toLower = if c.toNat ≥ 65 ∧ c.toNat ≤ 90 then Char.ofNat (c.toNat + 32) else c :=
    rfl
  rw [hdef, if_neg]
  simp only [isLowerAlnumHyphen, Bool.or_eq_true, Bool.and_eq_true, decide_eq_true_eq] at h
  rcases h with (h | h) | h
  · omega
  · omega
  · subst h; decide

theorem splitFirstDash_no_dash {l : List Char} (h : '-' ∉ l) :
    splitFirstDash l = (l, none) := by
  induction l with
  | nil => rfl
  | cons c cs ih =>
    have hc : c ≠ '-' := fun he => h (he ▸ List.mem_cons_self c cs)
    have hcs : '-' ∉ cs := fun hm => h (List.mem_cons_of_mem _ hm)
    simp [splitFirstDash, hc, ih hcs]

theorem splitFirstDash_append {v : List Char} (r : List Char) (h : '-' ∉ v) :
    splitFirstDash (v ++ '-' :: r) = (v, some r) := by
  induction v with
  | nil => simp [splitFirstDash]
  | cons c cs ih =>
    have hc : c ≠ '-' := fun he => h (he ▸ List.mem_cons_self c cs)
    have hcs : '-' ∉ cs := fun hm => h (List.mem_cons_of_mem _ hm)
    simp [splitFirstDash, hc, ih hcs]

/-! ### Claim theorems C4 and C5 -/

/-- **C4, counterexample.**  The claim quantifies over *every* known mode
`m`, promising `parse_command m modes = (m, "")`.  A mode whose own name
contains a hyphen refutes it: with `known_modes = ["re-solve"]` the command
`"re-solve"` is split at its first hyphen, the verb `"re"` is not a known
mode, and parsing fails instead of returning `("re-solve", "")`. -/
theorem c4_parse_roundtrip_counterexample :
    parse_command "re-solve" ["re-solve"] = .error (.unknownMode "re" ["re-solve"]) ∧
    Except.error (CmdError.unknownMode "re" ["re-solve"]) ≠
      (Except.ok (("re-solve", "")) : Except CmdError (String × String)) := by
  exact ⟨rfl, fun h => nomatch h⟩

/-- **C4 (amended).**  For every known mode `m` that is nonempty, hyphen-free
and lowercase (a fixed point of lowering), and every model alias `a` of
lowercase alphanumeric-plus-hyphen characters:
`parse_command (m ++ "-" ++ a) = ok (m, a)` and `parse_command m = ok (m, "")`;
and for every command text `X`, parsing `X` and parsing the lowercased `X`
agree (idempotence under re-lowercasing). -/
theorem c4_parse_roundtrip (modes : List String) (m a : String)
    (hmem : m ∈ modes) (hm0 : m ≠ "")
    (hmfix : ∀ c ∈ m.data, c.toLower = c ∧ c ≠ '-')
    (ha : ∀ c ∈ a.data, isLowerAlnumHyphen c = true) :
    parse_command (m ++ "-" ++ a) modes = .ok (m, a) ∧
    parse_command m modes = .ok (m, "") ∧
    (∀ (X : String) (modes' : List String),
      parse_command X modes' = parse_command (String.mk (X.data.map Char.toLower)) modes') := by
  have hmlow : m.data.map Char.toLower = m.data :=
    List.map_congr_left (fun c hc => (hmfix c hc).1) |>.trans m.data.map_id
  have halow : a.data.map Char.toLower = a.data :=
    List.map_congr_left (fun c hc => toLower_fixed_of_lowerAlnumHyphen (ha c hc)) |>.trans
      a.data.map_id
  have hmnd : '-' ∉ m.data := fun hc => (hmfix _ hc).2 rfl
  refine ⟨?_, ?_, ?_⟩
  · have hne : m ++ "-" ++ a ≠ "" := by
      intro h
      have hd := congrArg String.data h
      rw [String.data_append, String.data_append] at hd
      simp at hd
    have hdata : (m ++ "-" ++ a).data = m.data ++ '-' :: a.data := by
      rw [String.data_append, String.data_append]
      simp [show ("-" : String).data = ['-'] from rfl]
    rw [parse_command, if_neg hne]
    simp only [hdata, List.map_append, List.map_cons, hmlow, halow,
      show Char.toLower '-' = '-' from rfl]
    rw [splitFirstDash_append _ hmnd]
    simp [hmem]
  · rw [parse_command, if_neg hm0]
    simp only [hmlow]
    rw [splitFirstDash_no_dash hmnd]
    simp [hmem]
  · intro X modes'
    by_cases hX : X = ""
    · subst hX
      rfl
    · have hX' : String.mk (X.data.map Char.toLower) ≠ "" := by
        intro h
        apply hX
        have hd := congrArg String.data h
        simp only [String.data] at hd
        rw [List.map_eq_nil_iff] at hd
        exact String.ext_iff.mpr (by simpa using hd)
      rw [parse_command, parse_command, if_neg hX, if_neg hX']
      simp only [map_toLower_idem]

/-- **C4, witness.** -/
theorem c4_parse_roundtrip_witness :
    parse_command "resolve-claude-large" ["resolve", "design"] = .ok ("resolve", "claude-large") ∧
    parse_command "resolve" ["resolve", "design"] = .ok ("resolve", "") := by
  have h := c4_parse_roundtrip ["resolve", "design"] "resolve" "claude-large"
    (by decide) (by decide) (by decide) (by decide)
  have he : "resolve" ++ "-" ++ "claude-large" = "resolve-claude-large" := rfl
  exact ⟨he ▸ h.1, h.2.1⟩

/-- **C5.**  `parse_command` rejects the empty command with the bare-trigger
error for every mode set, and rejects every non-empty command whose first
hyphen-delimited segment (of the lower-cased text, which is what the parser
splits) is unknown, with an error naming that verb and carrying the sorted
valid-mode list; both are errors, never successes. -/
theorem c5_parse_errors (modes : List String) (s : String) (hs : s ≠ "")
    (hunk : String.mk (splitFirstDash (s.data.map Char.toLower)).1 ∉ modes) :
    parse_command "" modes = .error (.bareAgent (sortStrings modes)) ∧
    parse_command s modes =
      .error (.unknownMode (String.mk (splitFirstDash (s.data.map Char.toLower)).1)
        (sortStrings modes)) := by
  constructor
  · rfl
  · rw [parse_command, if_neg hs]
    simp only [if_neg hunk]

/-- **C5, witness.** -/
theorem c5_parse_errors_witness :
    parse_command "" ["resolve", "design"] = .error (.bareAgent ["design", "resolve"]) ∧
    parse_command "frobnicate" ["resolve", "design"] =
      .error (.unknownMode "frobnicate" ["design", "resolve"]) := by
  have h := c5_parse_errors ["resolve", "design"] "frobnicate" (by decide) (by decide)
  have hs : sortStrings ["resolve", "design"] = ["design", "resolve"] := by decide
  exact ⟨hs ▸ h.1, hs ▸ h.2⟩


/-! ### Claim theorem C2 -/

/-- **C2.**  Lookup specification of `deep_merge(A, B)`.  (The non-mutation
half of the claim is inherent in the embedding: `deep_merge` is a pure
function — the Python code likewise starts from `base.copy()` and only ever
assigns into that copy, so neither argument is modified.)  For all maps `A`,
`B` (with the duplicate-free keys every real Python dict has): a key only in
`A` keeps its `A`-value; a key whose values in both maps are maps gets the
recursive merge; every other key of `B` gets the `B`-value outright —
replacing, never combining, non-map values and sequences. -/
theorem c2_deep_merge_spec (A B : Config) (hnd : (keys B).Nodup) :
    (∀ k, k ∉ keys B → getVal (deep_merge A B) k = getVal A k) ∧
    (∀ k am bm, getVal A k = some (.map am) → getVal B k = some (.map bm) →
      getVal (deep_merge A B) k = some (.map (deep_merge am bm))) ∧
    (∀ k v, getVal B k = some v →
      (¬ ∃ am bm, getVal A k = some (.map am) ∧ v = Yaml.map bm) →
      getVal (deep_merge A B) k = some v) := by
  refine ⟨fun k hk => deep_merge_getVal_of_not_mem A B k hk, ?_, ?_⟩
  · intro k am bm hA hB
    rw [deep_merge_getVal_of_mem A B k _ hnd hB, hA]
    simp [merge2]
  · intro k v hB hno
    rw [deep_merge_getVal_of_mem A B k v hnd hB]
    cases hA : getVal A k with
    | none => rfl
    | some bv =>
      have hbv : merge2 bv v = v := by
        cases bv <;> cases v <;> first
          | rfl
          | exact absurd ⟨_, _, hA, rfl⟩ hno
      exact congrArg some hbv

def c2A : Config := [("a", .map [("x", .int 1)]), ("b", .int 2)]

def c2B : Config := [("a", .map [("y", .int 3)]), ("c", .seq [.int 4])]

/-- **C2, witness.** -/
theorem c2_deep_merge_spec_witness :
    getVal (deep_merge c2A c2B) "b" = some (.int 2) ∧
    getVal (deep_merge c2A c2B) "a" =
      some (.map (deep_merge [("x", .int 1)] [("y", .int 3)])) ∧
    getVal (deep_merge c2A c2B) "c" = some (.seq [.int 4]) := by
  obtain ⟨h1, h2, h3⟩ := c2_deep_merge_spec c2A c2B (by decide)
  refine ⟨(h1 "b" (by decide)).trans rfl, h2 "a" _ _ rfl rfl, h3 "c" _ rfl ?_⟩
  rintro ⟨am, bm, h, -⟩
  exact nomatch h


/-! ### Commit-trailer templating (src/lib/config.py lines 97–109)

`resolve_commit_trailer` delegates to Python's `str.format` with the three
keyword arguments `model_alias`, `model_id`, `oh_version`.  `pyFormatGo`
embeds the part of the `str.format` mini-language these templates can
exercise, as a one-pass scanner: literal text, `\x7b\x7b`/`\x7d\x7d` brace
escapes, and named replacement fields.  A `!conversion`/`:format-spec`
suffix is stripped when extracting the looked-up name (as Python does); the
substitution itself is modelled for bare fields, which is all the
repository's templates and tests use.  Python's `KeyError` for an unknown
field name and `ValueError` for a lone brace are the `FormatError` cases. -/

inductive FormatError where
  | unknownPlaceholder (name : String)
  | singleClosingBrace
  | unmatchedOpeningBrace
deriving DecidableEq, Repr

def lookupStr : List (String × String) → String → Option String
  | [], _ => none
  | (k', v) :: rest, k => if k' = k then some v else lookupStr rest k

/-- Scanner state: in literal text, just after an unescaped `\x7b`, just
after a `\x7d`, or inside a replacement field (collected characters held in
reverse). -/
inductive FmtState where
  | literal
  | afterOpen
  | afterClose
  | inField (acc : List Char)

/-- The field name: the collected text up to any `:`/`!` suffix. -/
def fieldName (field : List Char) : String :=
  String.mk (field.takeWhile (fun ch => !(ch = ':') && !(ch = '!')))

/-- Resolve one replacement field against the keyword arguments. -/
def emitField (env : List (String × String)) (field : List Char)
    (next : Except FormatError (List Char)) : Except FormatError (List Char) :=
  match lookupStr env (fieldName field) with
  | some v => next.map (fun r => v.data ++ r)
  | none => .error (.unknownPlaceholder (fieldName field))

/-- One-pass embedding of `template.format(**env)` over the template's
characters. -/
def pyFormatGo (env : List (String × String)) : FmtState → List Char → Except FormatError (List Char)
  | .literal, [] => .ok []
  | .literal, c :: rest =>
    if c = '\x7b' then pyFormatGo env .afterOpen rest
    else if c = '\x7d' then pyFormatGo env .afterClose rest
    else (pyFormatGo env .literal rest).map (fun r => c :: r)
  | .afterOpen, [] => .error .unmatchedOpeningBrace
  | .afterOpen, c :: rest =>
    if c = '\x7b' then (pyFormatGo env .literal rest).map (fun r => '\x7b' :: r)
    else if c = '\x7d' then emitField env [] (pyFormatGo env .literal rest)
    else pyFormatGo env (.inField [c]) rest
  | .afterClose, [] => .error .singleClosingBrace
  | .afterClose, c :: rest =>
    if c = '\x7d' then (pyFormatGo env .literal rest).map (fun r => '\x7d' :: r)
    else .error .singleClosingBrace
  | .inField _, [] => .error .unmatchedOpeningBrace
  | .inField acc, c :: rest =>
    if c = '\x7d' then emitField env acc.reverse (pyFormatGo env .literal rest)
    else pyFormatGo env (.inField (c :: acc)) rest

/-- `template.format(model_alias=..., model_id=..., oh_version=...)`. -/
def pyFormat (env : List (String × String)) (l : List Char) :
    Except FormatError (List Char) :=
  pyFormatGo env .literal l

/-- Embeds `resolve_commit_trailer(template, alias, model_id, oh_version)`
(src/lib/config.py lines 97–109).  A `None` template (absent key) reaches
this function only through the caller's `config.get("commit_trailer", "")`
default and is represented as the empty string, which Python's falsiness
test turns into the same empty-string result. -/
def resolve_commit_trailer (template aliasName model_id oh_version : String) :
    Except FormatError String :=
  if template = "" then .ok ""
  else
    (pyFormat [("model_alias", aliasName), ("model_id", model_id), ("oh_version", oh_version)]
      template.data).map String.mk

/-! ### Claim theorems C7 -/

theorem pyFormatGo_no_brace (env : List (String × String)) (l : List Char)
    (h : ∀ ch ∈ l, ch ≠ '\x7b' ∧ ch ≠ '\x7d') : pyFormatGo env .literal l = .ok l := by
  induction l with
  | nil => rfl
  | cons c rest ih =>
    obtain ⟨h1, h2⟩ := h c (List.mem_cons_self c rest)
    rw [pyFormatGo, if_neg h1, if_neg h2, ih (fun ch hm => h ch (List.mem_cons_of_mem c hm))]
    rfl

theorem pyFormatGo_inField_closes (env : List (String × String)) (l : List Char)
    (rest : List Char) (hl : ∀ ch ∈ l, ch ≠ '\x7d') : ∀ acc,
    pyFormatGo env (.inField acc) (l ++ '\x7d' :: rest) =
      emitField env (acc.reverse ++ l) (pyFormatGo env .literal rest) := by
  induction l with
  | nil =>
    intro acc
    rw [List.nil_append, pyFormatGo, if_pos rfl, List.append_nil]
  | cons c l' ih =>
    intro acc
    have hc : c ≠ '\x7d' := hl c (List.mem_cons_self c l')
    rw [List.cons_append, pyFormatGo, if_neg hc,
      ih (fun ch hm => hl ch (List.mem_cons_of_mem c hm)) (c :: acc)]
    simp [List.append_assoc]

/-- **C7, counterexample.**  The claim says a template containing no
placeholders comes back verbatim; but Python's `str.format` also rewrites
the brace *escapes* `\x7b\x7b`/`\x7d\x7d`.  The placeholder-free template
`"\x7b\x7b"` renders as `"\x7b"`, not verbatim. -/
theorem c7_trailer_counterexample :
    resolve_commit_trailer "\x7b\x7b" "a" "b" "c" = .ok "\x7b" ∧
    ("\x7b" : String) ≠ "\x7b\x7b" := by
  exact ⟨rfl, by decide⟩

/-- **C7 (amended).**  `resolve_commit_trailer` of the empty (or absent)
template is the empty string; substitution supports exactly the three
placeholders `model_alias`, `model_id`, `oh_version` (each substituted with
the corresponding argument, and any other nonempty bare field name is an
error, never emitted literally); and a template containing no brace
characters at all — rather than "no placeholders", since brace escapes are
also rewritten — is returned unchanged verbatim. -/
theorem c7_trailer_spec (a b c n t : String) (hn0 : n ≠ "")
    (hnch : ∀ ch ∈ n.data, ch ≠ '\x7b' ∧ ch ≠ '\x7d' ∧ ch ≠ ':' ∧ ch ≠ '!')
    (hno : n ∉ (["model_alias", "model_id", "oh_version"] : List String))
    (ht : ∀ ch ∈ t.data, ch ≠ '\x7b' ∧ ch ≠ '\x7d') :
    resolve_commit_trailer "" a b c = .ok "" ∧
    resolve_commit_trailer "Model: \x7bmodel_alias\x7d" a b c = .ok ("Model: " ++ a) ∧
    resolve_commit_trailer "\x7bmodel_alias\x7d" a b c = .ok a ∧
    resolve_commit_trailer "\x7bmodel_id\x7d" a b c = .ok b ∧
    resolve_commit_trailer "\x7boh_version\x7d" a b c = .ok c ∧
    resolve_commit_trailer t a b c = .ok t ∧
    resolve_commit_trailer ("\x7b" ++ n ++ "\x7d") a b c =
      .error (.unknownPlaceholder n) := by
  refine ⟨rfl, ?_, ?_, ?_, ?_, ?_, ?_⟩
  · simp [resolve_commit_trailer, pyFormat, pyFormatGo, emitField, fieldName, lookupStr,
      Except.map, String.ext_iff, String.data_append]
  · simp [resolve_commit_trailer, pyFormat, pyFormatGo, emitField, fieldName, lookupStr,
      Except.map, String.ext_iff]
  · simp [resolve_commit_trailer, pyFormat, pyFormatGo, emitField, fieldName, lookupStr,
      Except.map, String.ext_iff]
  · simp [resolve_commit_trailer, pyFormat, pyFormatGo, emitField, fieldName, lookupStr,
      Except.map, String.ext_iff]
  · by_cases h0 : t = ""
    · subst h0
      rfl
    · rw [resolve_commit_trailer, if_neg h0]
      rw [pyFormat, pyFormatGo_no_brace _ _ ht]
      rfl
  · have hne : ("\x7b" ++ n ++ "\x7d") ≠ "" := by
      intro h
      have hd := congrArg String.data h
      rw [String.data_append, String.data_append] at hd
      simp at hd
    rw [resolve_commit_trailer, if_neg hne]
    have hdata : ("\x7b" ++ n ++ "\x7d").data = '\x7b' :: (n.data ++ ['\x7d']) := by
      rw [String.data_append, String.data_append]
      rfl
    rw [pyFormat, hdata, pyFormatGo, if_pos rfl]
    cases hnd : n.data with
    | nil => exact absurd (String.ext_iff.mpr (by simp [hnd])) hn0
    | cons nh nt =>
      have hh := hnch nh (by rw [hnd]; exact List.mem_cons_self nh nt)
      rw [List.cons_append, pyFormatGo, if_neg hh.1, if_neg hh.2.1,
        pyFormatGo_inField_closes _ _ _ (fun ch hm => (hnch ch (hnd ▸ List.mem_cons_of_mem nh hm)).2.1)]
      have hfield : ([nh].reverse ++ nt : List Char) = n.data := by
        simp [hnd]
      rw [hfield]
      have hname : fieldName n.data = n := by
        rw [fieldName]
        have htake : n.data.takeWhile (fun ch => !(ch = ':') && !(ch = '!')) = n.data := by
          apply List.takeWhile_eq_self_iff.mpr
          intro ch hm
          simp [(hnch ch hm).2.2.1, (hnch ch hm).2.2.2]
        rw [htake]
      have h1 : ("model_alias" : String) ≠ n := fun he => hno (he ▸ by simp)
      have h2 : ("model_id" : String) ≠ n := fun he => hno (he ▸ by simp)
      have h3 : ("oh_version" : String) ≠ n := fun he => hno (he ▸ by simp)
      rw [emitField, hname, lookupStr, if_neg h1, lookupStr, if_neg h2, lookupStr, if_neg h3,
        lookupStr]
      rfl

/-- **C7, witness.** -/
theorem c7_trailer_spec_witness :
    resolve_commit_trailer "" "x" "y" "z" = .ok "" ∧
    resolve_commit_trailer "Model: \x7bmodel_alias\x7d" "x" "y" "z" = .ok "Model: x" ∧
    resolve_commit_trailer "Static trailer" "x" "y" "z" = .ok "Static trailer" ∧
    resolve_commit_trailer "\x7bfoo\x7d" "x" "y" "z" = .error (.unknownPlaceholder "foo") := by
  obtain ⟨h1, h2, h3, h4, h5, h6, h7⟩ :=
    c7_trailer_spec "x" "y" "z" "foo" "Static trailer" (by decide) (by decide) (by decide)
      (by decide)
  refine ⟨h1, h2.trans (by rfl), h6, ?_⟩
  have he : ("\x7b" ++ "foo" ++ "\x7d" : String) = "\x7bfoo\x7d" := rfl
  exact he ▸ h7


/-! ### Config resolver (src/lib/config.py lines 112–219) -/

/-- The exceptions `resolve_config` can raise: the `parse_command`
`ValueError`s, the unknown-alias `KeyError` (carrying `str(alias)` and
`list(models.keys())` as its message does), commit-trailer format errors,
and the `AttributeError`/`TypeError`/`KeyError` a malformed document
produces when a non-map value is used as a dict or a required key is
missing. -/
inductive ConfigError where
  | cmd (e : CmdError)
  | unknownAlias (aliasName : String) (available : List String)
  | fmt (e : FormatError)
  | typeError (what : String)
  | missingKey (what : String)
deriving DecidableEq, Repr

/-- `config.get(key, \x7b\x7d)` followed by use of the result as a dict:
an absent key is the empty dict, a present non-map value is a Python
`AttributeError` (`typeError`). -/
def getMapOr (config : Config) (key : String) : Except ConfigError Config :=
  match getVal config key with
  | none => .ok []
  | some (.map m) => .ok m
  | some _ => .error (.typeError key)

/-- Python `str()` of a YAML value as used in format substitution and error
messages.  (The configuration values so rendered are strings in every
reachable case of the claims; container rendering is abbreviated.) -/
def pyStr : Yaml → String
  | .str v => v
  | .int i => toString i
  | .bool true => "True"
  | .bool false => "False"
  | .null => "None"
  | .seq _ => "<sequence>"
  | .map _ => "<mapping>"

/-- The call `resolve_commit_trailer(template, alias, model_id, oh_version)`
as made by `resolve_config` (line 215), where the template is whatever YAML
value `config.get("commit_trailer", "")` produced: a falsy template yields
the empty string (the callee's `if not template` guard), a truthy string is
formatted, a truthy non-string would fail Python's `.format` attribute
lookup. -/
def resolve_commit_trailer_y (template aliasY model_idY oh_versionY : Yaml) :
    Except ConfigError String :=
  if pyTruthy template = false then .ok ""
  else
    match template with
    | .str t =>
      (resolve_commit_trailer t (pyStr aliasY) (pyStr model_idY) (pyStr oh_versionY)).mapError .fmt
    | _ => .error (.typeError "commit_trailer")

/-- Embeds `resolve_config(base_path, override_path, command_string,
local_path)` (src/lib/config.py lines 112–219).  Each layer argument is the
loaded content of the corresponding file, `none` when the file is absent
(or, for the local layer, when `local_path=None`); `yaml.safe_load(f) or
\x7b\x7d` of a present file is `some` of its map.  Console logging (lines
146–164) has no effect on the result and is omitted.  The matches follow
the source's statement order, so the embedding fails with the same first
error the Python code raises. -/
def resolve_config (base_config override_config local_config : Option Config)
    (command_string : String) : Except ConfigError Config :=
  let base := base_config.getD []
  let ovr := override_config.getD []
  let loc := local_config.getD []
  let config := deep_merge (deep_merge base ovr) loc
  match getMapOr config "modes" with
  | .error e => .error e
  | .ok modes =>
  match parse_command command_string (keys modes) with
  | .error e => .error (.cmd e)
  | .ok (mode, alias0) =>
  match getVal modes mode with
  | none => .error (.missingKey mode)
  | some modeY =>
  match (if alias0 = "" then
           match modeY with
           | .map mc => .ok ((getVal mc "default_model").getD
               ((getVal config "default_model").getD (.str "claude-small")))
           | _ => .error (.typeError "mode_config")
         else .ok (.str alias0) : Except ConfigError Yaml) with
  | .error e => .error e
  | .ok aliasY =>
  match getMapOr config "models" with
  | .error e => .error e
  | .ok models =>
  match (match aliasY with
         | .str s => getVal models s
         | _ => none) with
  | none => .error (.unknownAlias (pyStr aliasY) (keys models))
  | some entryY =>
  match entryY with
  | .map entry =>
    match getVal entry "id" with
    | none => .error (.missingKey "id")
    | some model_idY =>
    match getMapOr config "openhands" with
    | .error e => .error e
    | .ok oh =>
    let max_iter := (getVal oh "max_iterations").getD (.int 50)
    let oh_version := (getVal oh "version").getD (.str "0.39.0")
    let pr_type := (getVal oh "pr_type").getD (.str "ready")
    match modeY with
    | .map mode_config =>
      let action := (getVal mode_config "action").getD (.str "pr")
      let template := (getVal config "commit_trailer").getD (.str "")
      match resolve_commit_trailer_y template aliasY model_idY oh_version with
      | .error e => .error e
      | .ok trailer =>
        let result : Config :=
          [("mode", .str mode), ("action", action), ("model", model_idY),
           ("alias", aliasY), ("max_iterations", max_iter),
           ("oh_version", oh_version), ("pr_type", pr_type),
           ("has_override", .bool (!ovr.isEmpty))]
        let result := match getVal mode_config "prompt_prefix" with
          | some p => result ++ [("prompt_prefix", p)]
          | none => result
        let result := match getVal mode_config "context_files" with
          | some cf => result ++ [("context_files", cf)]
          | none => result
        .ok (result ++ [("commit_trailer", .str trailer)])
    | _ => .error (.typeError "mode_config")
  | _ => .error (.typeError "models_entry")

/-- The value of key `k` in a successful resolution result. -/
def resultGet (r : Except ConfigError Config) (k : String) : Option Yaml :=
  match r with
  | .ok c => getVal c k
  | .error _ => none

/-! ### Claim theorems C1 and C3 -/

/-- The `config_dir` test fixture of tests/test_config.py with
`openhands.on_failure` set to the invalid value `"silently_explode"`
(the scenario of `test_resolve_config_on_failure_invalid`). -/
def c1cfg : Config :=
  [("default_model", .str "claude-small"),
   ("models", .map [("claude-small", .map [("id", .str "anthropic/claude-sonnet-4-5")])]),
   ("modes", .map [("resolve", .map [("action", .str "pr")])]),
   ("openhands", .map [("version", .str "1.3.0"), ("max_iterations", .int 50),
     ("pr_type", .str "ready"), ("on_failure", .str "silently_explode")])]

def c1result : Config :=
  [("mode", .str "resolve"), ("action", .str "pr"),
   ("model", .str "anthropic/claude-sonnet-4-5"), ("alias", .str "claude-small"),
   ("max_iterations", .int 50), ("oh_version", .str "1.3.0"), ("pr_type", .str "ready"),
   ("has_override", .bool false), ("commit_trailer", .str "")]

/-- **C1.**  `resolve_config` does not read `on_failure` at all: on a
configuration whose `openhands` block sets `on_failure` to a value outside
the documented allow-list, resolution *succeeds* (no fatal validation
error), and the returned record contains no `on_failure` key — contradicting
both the claim and the repository's own tests
(`test_resolve_config_on_failure_invalid` expects a `ValueError`, and
`test_resolve_config_openhands_defaults` expects the record to carry
`on_failure == "comment"`). -/
theorem c1_on_failure_missing :
    resolve_config (some c1cfg) none none "resolve" = .ok c1result ∧
    getVal c1result "on_failure" = none ∧
    (match getVal c1cfg "openhands" with
     | some (.map oh) => getVal oh "on_failure"
     | _ => none) = some (.str "silently_explode") := by
  exact ⟨rfl, rfl, rfl⟩

/-- The three-layer fixture of the spec's precedence property: base pins
`max_iterations` to 50, override to 10, local to 99. -/
def c3base : Config :=
  [("default_model", .str "s"),
   ("models", .map [("s", .map [("id", .str "anthropic/x")])]),
   ("modes", .map [("resolve", .map [("action", .str "pr")])]),
   ("openhands", .map [("max_iterations", .int 50)])]

def c3ovr : Config := [("openhands", .map [("max_iterations", .int 10)])]

def c3loc : Config := [("openhands", .map [("max_iterations", .int 99)])]

/-- **C3.**  Layer precedence: with all three layers present the local value
99 wins; without the local layer the override value 10 wins; with neither
override nor local the base value 50 remains.  An absent layer file
(`none`) is treated exactly as an empty map, for each of the three layers,
never as an error. -/
theorem c3_layer_precedence :
    resultGet (resolve_config (some c3base) (some c3ovr) (some c3loc) "resolve")
      "max_iterations" = some (.int 99) ∧
    resultGet (resolve_config (some c3base) (some c3ovr) none "resolve")
      "max_iterations" = some (.int 10) ∧
    resultGet (resolve_config (some c3base) none none "resolve")
      "max_iterations" = some (.int 50) ∧
    (∀ (b o : Option Config) (cmd : String),
      resolve_config b o none cmd = resolve_config b o (some []) cmd) ∧
    (∀ (b l : Option Config) (cmd : String),
      resolve_config b none l cmd = resolve_config b (some []) l cmd) ∧
    (∀ (o l : Option Config) (cmd : String),
      resolve_config none o l cmd = resolve_config (some []) o l cmd) := by
  exact ⟨rfl, rfl, rfl, fun _ _ _ => rfl, fun _ _ _ => rfl, fun _ _ _ => rfl⟩


/-! ### Claim theorem C6 -/

/-- **C6.**  For a single-layer configuration `C` whose `modes` and `models`
blocks are maps and whose command parses to mode `m` with alias `a0`, the
alias actually resolved is `a0` when non-empty, else the chain
"`mode_config.get("default_model", config.get("default_model",
"claude-small"))`" — the mode's own default beating the top-level one by
`get`'s semantics.  When the (possibly substituted) alias names a configured
model, the record carries that alias and the model's `id`; when it is
absent from the merged `models` map, resolution fails with the
unknown-alias error listing exactly the configured aliases, in order. -/
theorem c6_default_model_chain (C : Config) (cmd m a0 : String) (ms mc models : Config)
    (hmodes : getVal C "modes" = some (.map ms))
    (hparse : parse_command cmd (keys ms) = .ok (m, a0))
    (hmc : getVal ms m = some (.map mc))
    (hmodels : getVal C "models" = some (.map models)) :
    (∀ (X : String) (me : Config) (I : Yaml) (oh : Config),
      (if a0 = "" then
        (getVal mc "default_model").getD ((getVal C "default_model").getD (.str "claude-small"))
       else .str a0) = .str X →
      getVal models X = some (.map me) →
      getVal me "id" = some I →
      getMapOr C "openhands" = .ok oh →
      getVal C "commit_trailer" = none →
      resultGet (resolve_config (some C) none none cmd) "alias" = some (.str X) ∧
      resultGet (resolve_config (some C) none none cmd) "model" = some I) ∧
    (∀ (X : String),
      (if a0 = "" then
        (getVal mc "default_model").getD ((getVal C "default_model").getD (.str "claude-small"))
       else .str a0) = .str X →
      getVal models X = none →
      resolve_config (some C) none none cmd = .error (.unknownAlias X (keys models))) := by
  have hmod2 : getMapOr C "modes" = .ok ms := by
    rw [getMapOr, hmodes]
  have hml2 : getMapOr C "models" = .ok models := by
    rw [getMapOr, hmodels]
  constructor
  · intro X me I oh hX hentry hid hoh hct
    by_cases h0 : a0 = ""
    · rw [if_pos h0] at hX
      subst h0
      cases hpp : getVal mc "prompt_prefix" <;> cases hcf : getVal mc "context_files" <;>
        constructor <;>
        simp [resultGet, resolve_config, deep_merge_nil, hmod2, hparse, hmc, hX, hml2,
          hentry, hid, hoh, hct, resolve_commit_trailer_y, pyTruthy, getVal, hpp, hcf]
    · rw [if_neg h0] at hX
      obtain rfl : a0 = X := by injection hX
      cases hpp : getVal mc "prompt_prefix" <;> cases hcf : getVal mc "context_files" <;>
        constructor <;>
        simp [resultGet, resolve_config, deep_merge_nil, hmod2, hparse, hmc, h0, hml2,
          hentry, hid, hoh, hct, resolve_commit_trailer_y, pyTruthy, getVal, hpp, hcf]
  · intro X hX habs
    by_cases h0 : a0 = ""
    · rw [if_pos h0] at hX
      subst h0
      simp [resolve_config, deep_merge_nil, hmod2, hparse, hmc, hX, hml2, habs, pyStr]
    · rw [if_neg h0] at hX
      obtain rfl : a0 = X := by injection hX
      simp [resolve_config, deep_merge_nil, hmod2, hparse, hmc, h0, hml2, habs, pyStr]

/-- Fixture for the C6 witness: the mode's own default (`m1`) must beat the
differing top-level default (`m2`), and an unknown explicit alias must
report the configured aliases. -/
def c6cfg : Config :=
  [("default_model", .str "m2"),
   ("models", .map [("m1", .map [("id", .str "anthropic/test-1")]),
                    ("m2", .map [("id", .str "anthropic/test-2")])]),
   ("modes", .map [("resolve", .map [("action", .str "pr"), ("default_model", .str "m1")])])]

/-- **C6, witness.** -/
theorem c6_default_model_chain_witness :
    resultGet (resolve_config (some c6cfg) none none "resolve") "alias" = some (.str "m1") ∧
    resultGet (resolve_config (some c6cfg) none none "resolve") "model" =
      some (.str "anthropic/test-1") ∧
    resolve_config (some c6cfg) none none "resolve-nope" =
      .error (.unknownAlias "nope" ["m1", "m2"]) := by
  obtain ⟨hok, -⟩ := c6_default_model_chain c6cfg "resolve" "resolve" ""
    [("resolve", .map [("action", .str "pr"), ("default_model", .str "m1")])]
    [("action", .str "pr"), ("default_model", .str "m1")]
    [("m1", .map [("id", .str "anthropic/test-1")]), ("m2", .map [("id", .str "anthropic/test-2")])]
    rfl rfl rfl rfl
  obtain ⟨h1, h2⟩ := hok "m1" [("id", .str "anthropic/test-1")] (.str "anthropic/test-1") []
    rfl rfl rfl rfl rfl
  obtain ⟨-, hbad⟩ := c6_default_model_chain c6cfg "resolve-nope" "resolve" "nope"
    [("resolve", .map [("action", .str "pr"), ("default_model", .str "m1")])]
    [("action", .str "pr"), ("default_model", .str "m1")]
    [("m1", .map [("id", .str "anthropic/test-1")]), ("m2", .map [("id", .str "anthropic/test-2")])]
    rfl rfl rfl rfl
  exact ⟨h1, h2, hbad "nope" rfl rfl⟩


/-! ### Claim theorem C10: case normalization invariants -/

theorem toLower_dash (c : Char) : c.toLower = '-' ↔ c = '-' := by
  have hdef : c.toLower = if c.toNat ≥ 65 ∧ c.toNat ≤ 90 then Char.ofNat (c.toNat + 32) else c :=
    rfl
  constructor
  · intro h
    by_cases hc : c.toNat ≥ 65 ∧ c.toNat ≤ 90
    · exfalso
      rw [hdef, if_pos hc] at h
      have hv : (c.toNat + 32).isValidChar := Or.inl (by omega)
      have ht : (Char.ofNat (c.toNat + 32)).toNat = c.toNat + 32 := char_toNat_ofNat hv
      have hd : ('-' : Char).toNat = 45 := by decide
      rw [h, hd] at ht
      omega
    · rwa [hdef, if_neg hc] at h
  · intro h
    subst h
    decide

theorem splitFirstDash_mem (l : List Char) :
    (∀ c ∈ (splitFirstDash l).1, c ∈ l) ∧
    (∀ r, (splitFirstDash l).2 = some r → ∀ c ∈ r, c ∈ l) := by
  induction l with
  | nil => simp [splitFirstDash]
  | cons x xs ih =>
    by_cases hx : x = '-'
    · subst hx
      refine ⟨by simp [splitFirstDash], ?_⟩
      intro r hr c hc
      simp only [splitFirstDash, if_pos rfl] at hr
      obtain rfl : xs = r := by injection hr
      exact List.mem_cons_of_mem _ hc
    · refine ⟨?_, ?_⟩
      · intro c hc
        simp only [splitFirstDash, if_neg hx] at hc
        rcases List.mem_cons.mp hc with rfl | hc'
        · exact List.mem_cons_self _ _
        · exact List.mem_cons_of_mem _ (ih.1 c hc')
      · intro r hr c hc
        simp only [splitFirstDash, if_neg hx] at hr
        exact List.mem_cons_of_mem _ (ih.2 r hr c hc)

theorem splitFirstDash_map_toLower (l : List Char) :
    splitFirstDash (l.map Char.toLower) =
      ((splitFirstDash l).1.map Char.toLower,
       ((splitFirstDash l).2).map (List.map Char.toLower)) := by
  induction l with
  | nil => rfl
  | cons x xs ih =>
    by_cases hx : x = '-'
    · subst hx
      simp [splitFirstDash, show Char.toLower '-' = '-' from rfl]
    · have hx' : Char.toLower x ≠ '-' := fun he => hx ((toLower_dash x).mp he)
      simp [splitFirstDash, hx, hx', ih]

/-- Inversion of a successful `parse_command`. -/
theorem parse_ok_shape {cmd : String} {modes : List String} {m a : String}
    (h : parse_command cmd modes = .ok (m, a)) :
    cmd ≠ "" ∧ m ∈ modes ∧
    m = String.mk (splitFirstDash (cmd.data.map Char.toLower)).1 ∧
    a = String.mk (((splitFirstDash (cmd.data.map Char.toLower)).2).getD []) := by
  by_cases h0 : cmd = ""
  · rw [parse_command, if_pos h0] at h
    exact nomatch h
  · simp only [parse_command, if_neg h0] at h
    split at h
    · next hmem =>
      obtain ⟨rfl, rfl⟩ : _ ∧ _ := by
        have := h
        injection this with h1
        exact ⟨congrArg Prod.fst h1.symm, congrArg Prod.snd h1.symm⟩
      exact ⟨h0, hmem, rfl, rfl⟩
    · exact nomatch h

/-- A successful parse returns the mode and alias in lowercase canonical
form: both are fixed points of per-character lowering. -/
theorem parse_ok_lower {cmd : String} {modes : List String} {m a : String}
    (h : parse_command cmd modes = .ok (m, a)) :
    m.data.map Char.toLower = m.data ∧ a.data.map Char.toLower = a.data := by
  obtain ⟨-, -, hm, ha⟩ := parse_ok_shape h
  have hfix : ∀ c ∈ cmd.data.map Char.toLower, Char.toLower c = c := by
    intro c hc
    obtain ⟨c', -, rfl⟩ := List.mem_map.mp hc
    exact toLower_idem c'
  constructor
  · rw [hm]
    exact List.map_congr_left
      (fun c hc => hfix c ((splitFirstDash_mem _).1 c hc)) |>.trans (List.map_id _)
  · rw [ha]
    cases hsp : (splitFirstDash (cmd.data.map Char.toLower)).2 with
    | none => simp
    | some r =>
      simp only [Option.getD_some]
      exact List.map_congr_left
        (fun c hc => hfix c ((splitFirstDash_mem _).2 r hsp c hc)) |>.trans (List.map_id _)

/-- Inversion of a successful `resolve_config`: the record's `mode` is the
parsed mode, its `alias` is the parsed alias whenever one was given
explicitly. -/
theorem resolve_config_ok_inv (b o l : Option Config) (cmd : String) (r : Config)
    (h : resolve_config b o l cmd = .ok r) :
    ∃ (ms : Config) (m a0 : String) (aliasY : Yaml),
      parse_command cmd (keys ms) = .ok (m, a0) ∧
      getVal r "mode" = some (.str m) ∧
      getVal r "alias" = some aliasY ∧
      (a0 ≠ "" → aliasY = .str a0) := by
  simp only [resolve_config] at h
  generalize hcfg : deep_merge (deep_merge (b.getD []) (o.getD [])) (l.getD []) = cfg at h
  cases hmod : getMapOr cfg "modes" with
  | error e => simp only [hmod] at h; exact nomatch h
  | ok ms =>
  simp only [hmod] at h
  cases hp : parse_command cmd (keys ms) with
  | error e => simp only [hp] at h; exact nomatch h
  | ok p =>
  obtain ⟨m, a0⟩ := p
  simp only [hp] at h
  cases hmy : getVal ms m with
  | none => simp only [hmy] at h; exact nomatch h
  | some modeY =>
  simp only [hmy] at h
  cases hal : (if a0 = "" then
      match modeY with
      | .map mc => Except.ok ((getVal mc "default_model").getD
          ((getVal cfg "default_model").getD (.str "claude-small")))
      | _ => Except.error (ConfigError.typeError "mode_config")
    else Except.ok (Yaml.str a0)) with
  | error e => simp only [hal] at h; exact nomatch h
  | ok aliasY =>
  simp only [hal] at h
  cases hml : getMapOr cfg "models" with
  | error e => simp only [hml] at h; exact nomatch h
  | ok models =>
  simp only [hml] at h
  cases hlk : (match aliasY with
      | .str s => getVal models s
      | _ => none) with
  | none => simp only [hlk] at h; exact nomatch h
  | some entryY =>
  simp only [hlk] at h
  cases entryY with
  | map entry =>
    simp only at h
    cases hid : getVal entry "id" with
    | none => simp only [hid] at h; exact nomatch h
    | some model_idY =>
    simp only [hid] at h
    cases hoh : getMapOr cfg "openhands" with
    | error e => simp only [hoh] at h; exact nomatch h
    | ok oh =>
    simp only [hoh] at h
    cases modeY with
    | map mode_config =>
      simp only at h
      cases htr : resolve_commit_trailer_y ((getVal cfg "commit_trailer").getD (.str ""))
          aliasY model_idY ((getVal oh "version").getD (.str "0.39.0")) with
      | error e => simp only [htr] at h; exact nomatch h
      | ok trailer =>
      simp only [htr] at h
      obtain rfl : _ = r := by injection h
      refine ⟨ms, m, a0, aliasY, hp, ?_, ?_, ?_⟩
      · cases hpp : getVal mode_config "prompt_prefix" <;>
          cases hcf : getVal mode_config "context_files" <;>
          simp [getVal, hpp, hcf]
      · cases hpp : getVal mode_config "prompt_prefix" <;>
          cases hcf : getVal mode_config "context_files" <;>
          simp [getVal, hpp, hcf]
      · intro ha0
        rw [if_neg ha0] at hal
        injection hal with hal'
        exact hal'.symm
    | str v => simp only at h; exact nomatch h
    | int v => simp only at h; exact nomatch h
    | bool v => simp only at h; exact nomatch h
    | null => simp only at h; exact nomatch h
    | seq v => simp only at h; exact nomatch h
  | str v => simp only at h; exact nomatch h
  | int v => simp only at h; exact nomatch h
  | bool v => simp only at h; exact nomatch h
  | null => simp only at h; exact nomatch h
  | seq v => simp only at h; exact nomatch h

/-- Fixture for C10: a models-map key with uppercase letters, reachable as
the mode's verbatim `default_model` but not by explicit command text. -/
def c10cfg : Config :=
  [("models", .map [("Claude-Big", .map [("id", .str "anthropic/big")])]),
   ("modes", .map [("resolve", .map [("action", .str "pr"),
      ("default_model", .str "Claude-Big")])])]

/-- **C10.**  Every successful resolution returns a lowercase mode name; an
explicitly supplied alias is looked up and returned as the lowercased text
after the command's first hyphen; but a default alias from configuration is
used verbatim — concretely, the uppercase models key `"Claude-Big"` is
reachable through the mode's `default_model` while the explicit command
`"resolve-Claude-Big"` is lowercased and fails. -/
theorem c10_alias_case_invariants :
    (∀ (b o l : Option Config) (cmd : String) (r : Config),
      resolve_config b o l cmd = .ok r →
      ∃ m : String, getVal r "mode" = some (.str m) ∧ m.data.map Char.toLower = m.data) ∧
    (∀ (b o l : Option Config) (cmd : String) (r : Config) (raw : List Char),
      resolve_config b o l cmd = .ok r →
      (splitFirstDash cmd.data).2 = some raw → raw ≠ [] →
      getVal r "alias" = some (.str (String.mk (raw.map Char.toLower)))) ∧
    resultGet (resolve_config (some c10cfg) none none "resolve") "alias" =
      some (.str "Claude-Big") ∧
    resolve_config (some c10cfg) none none "resolve-Claude-Big" =
      .error (.unknownAlias "claude-big" ["Claude-Big"]) := by
  refine ⟨?_, ?_, rfl, rfl⟩
  · intro b o l cmd r h
    obtain ⟨ms, m, a0, aliasY, hp, hmode, -, -⟩ := resolve_config_ok_inv b o l cmd r h
    exact ⟨m, hmode, (parse_ok_lower hp).1⟩
  · intro b o l cmd r raw h hraw hne
    obtain ⟨ms, m, a0, aliasY, hp, -, halias, hexp⟩ := resolve_config_ok_inv b o l cmd r h
    obtain ⟨-, -, -, ha⟩ := parse_ok_shape hp
    rw [splitFirstDash_map_toLower, hraw] at ha
    have ha' : a0 = String.mk (raw.map Char.toLower) := by
      rw [ha]
      simp
    have ha0 : a0 ≠ "" := by
      rw [ha']
      intro hc
      have hd := congrArg String.data hc
      simp only [String.data] at hd
      exact hne (List.map_eq_nil_iff.mp hd)
    rw [halias, hexp ha0, ha']

/-- **C10, witness.** -/
theorem c10_alias_case_invariants_witness :
    getVal [("mode", .str "resolve"), ("action", .str "pr"),
      ("model", .str "anthropic/test-1"), ("alias", .str "m1"),
      ("max_iterations", .int 50), ("oh_version", .str "0.39.0"),
      ("pr_type", .str "ready"), ("has_override", .bool false),
      ("commit_trailer", .str "")] "alias" = some (.str "m1") := by
  have h : resolve_config (some c6cfg) none none "Resolve-M1" =
      .ok [("mode", .str "resolve"), ("action", .str "pr"),
        ("model", .str "anthropic/test-1"), ("alias", .str "m1"),
        ("max_iterations", .int 50), ("oh_version", .str "0.39.0"),
        ("pr_type", .str "ready"), ("has_override", .bool false),
        ("commit_trailer", .str "")] := rfl
  have h2 := c10_alias_case_invariants.2.1 (some c6cfg) none none "Resolve-M1" _
    "M1".data h rfl (by decide)
  exact h2


/-! ### Workflow compiler (src/scripts/compile.py)

The compiler is embedded structurally: the YAML text emission (header
comments, block-scalar formatting, the `"on"` key restoration, file
writing) is presentation and out of scope; what is modelled is everything
that determines the compiled artifact's structure — the security-gate
extraction, the name-indexed step selection, the synthesized steps, the
inlined configuration values, the env-var updates and the cross-job
reference rewriting. -/

inductive CompileError where
  | stepNotFound (name : String)
  | missingKey (what : String)
  | badValue (what : String)
deriving DecidableEq, Repr

/-- `d.get(key, \x7b\x7d)` then dict use, in the compiler's error type. -/
def cGetMapOr (d : Config) (key : String) : Except CompileError Config :=
  match getVal d key with
  | none => .ok []
  | some (.map m) => .ok m
  | some _ => .error (.badValue key)

/-- The configuration values `inline_config_parsing` (src/scripts/compile.py
lines 70–99) extracts and interpolates as literals into the emitted
config-parsing code: the resolved default model, the alias table (each
entry's `id`), the five `openhands` settings with their defaults, and the
commit-trailer template (stored raw here; its Python-string-literal
escaping, line 93, is part of the code emission). -/
structure InlineSettings where
  default_model : Yaml
  models : List (String × Yaml)
  max_iterations : Yaml
  oh_version : Yaml
  pr_type : Yaml
  on_failure : Yaml
  target_branch : Yaml
  commit_trailer_template : String

/-- The `models_dict_lines` loop (lines 96–99): each `model_info["id"]`,
a `KeyError`/`TypeError` when an entry is not a map carrying `"id"`. -/
def modelsTable : Config → Except CompileError (List (String × Yaml))
  | [] => .ok []
  | (a, info) :: rest =>
    match info with
    | .map m =>
      match getVal m "id" with
      | some mid => (modelsTable rest).map (fun t => (a, mid) :: t)
      | none => .error (.missingKey "id")
    | _ => .error (.badValue "model_info")

/-- Embeds the settings extraction of `inline_config_parsing(config_yaml,
mode)` (src/scripts/compile.py lines 70–99). -/
def inline_config_parsing (config_yaml : Config) (mode : String) :
    Except CompileError InlineSettings :=
  match cGetMapOr config_yaml "modes" with
  | .error e => .error e
  | .ok modes_config =>
  match (match getVal modes_config mode with
         | some (.map mc) => Except.ok mc
         | some _ => .error (CompileError.badValue "mode_config")
         | none => .ok []) with
  | .error e => .error e
  | .ok mode_config =>
  let default_model := (getVal mode_config "default_model").getD
    ((getVal config_yaml "default_model").getD (.str "claude-small"))
  match cGetMapOr config_yaml "models" with
  | .error e => .error e
  | .ok models =>
  match cGetMapOr config_yaml "openhands" with
  | .error e => .error e
  | .ok oh =>
  let max_iterations := (getVal oh "max_iterations").getD (.int 50)
  let oh_version := (getVal oh "version").getD (.str "1.3.0")
  let pr_type := (getVal oh "pr_type").getD (.str "ready")
  let on_failure := (getVal oh "on_failure").getD (.str "comment")
  let target_branch := (getVal oh "target_branch").getD (.str "main")
  match (match getVal config_yaml "commit_trailer" with
         | none => Except.ok ""
         | some (.str t) => .ok t
         | some _ => .error (CompileError.badValue "commit_trailer")) with
  | .error e => .error e
  | .ok commit_trailer_template =>
  match modelsTable models with
  | .error e => .error e
  | .ok table =>
    .ok { default_model := default_model, models := table,
          max_iterations := max_iterations, oh_version := oh_version,
          pr_type := pr_type, on_failure := on_failure,
          target_branch := target_branch,
          commit_trailer_template := commit_trailer_template }

/-- `find_step(steps, name)` (src/scripts/compile.py lines 53–58):
name-indexed lookup, `KeyError` naming the step when absent. -/
def step_has_name (st : Config) (name : String) : Bool :=
  match getVal st "name" with
  | some (.str n) => n == name
  | _ => false

def find_step : List Yaml → String → Except CompileError Config
  | [], name => .error (.stepNotFound name)
  | .map st :: rest, name =>
    if step_has_name st name then .ok st else find_step rest name
  | _ :: _, _ => .error (.badValue "step")

/-- The three-way token fallback substituted into compiled steps. -/
def tokenFallback : String :=
  "$\x7b\x7b steps.app-token.outputs.token || secrets.RDB_PAT_TOKEN || github.token \x7d\x7d"

/-- `step["env"][key] = val` on a copied step. -/
def set_env (st : Config) (key val : String) : Except CompileError Config :=
  match getVal st "env" with
  | some (.map env) => .ok (setVal st "env" (.map (setVal env key (.str val))))
  | some _ => .error (.badValue "env")
  | none => .error (.missingKey "env")

/-- The internal-canary filter on the Resolve-issue step's env
(src/scripts/compile.py lines 307–308). -/
def strip_canary (st : Config) : Except CompileError Config :=
  match getVal st "env" with
  | some (.map env) =>
    .ok (setVal st "env" (.map (env.filter (fun p => !(p.1 == "SANDBOX_ENV_E2E_TEST_TOKEN")))))
  | some _ => .error (.badValue "env")
  | none => .error (.missingKey "env")

/-- Python `s.replace(pat, repl)`: left-to-right, non-overlapping, all
occurrences.  The skip counter makes the recursion structural. -/
def replaceGo (pat repl : List Char) : Nat → List Char → List Char
  | _, [] => []
  | n+1, _ :: rest => replaceGo pat repl n rest
  | 0, c :: rest =>
    if pat.isPrefixOf (c :: rest) then repl ++ replaceGo pat repl (pat.length - 1) rest
    else c :: replaceGo pat repl 0 rest

def pyReplace (s pat repl : String) : String :=
  String.mk (replaceGo pat.data repl.data 0 s.data)

/-- The cross-job reference rewrite of `_rewrite_needs_refs`
(src/scripts/compile.py lines 490–506), on one string. -/
def rewrite_str (s : String) : String :=
  pyReplace s "needs.parse.outputs." "steps.parse.outputs."

mutual

/-- `_rewrite_needs_refs`'s recursive rewrite: strings rewritten, dict keys
left alone, maps and sequences traversed. -/
def rewrite_refs : Yaml → Yaml
  | .str v => .str (rewrite_str v)
  | .seq xs => .seq (rewrite_list xs)
  | .map es => .map (rewrite_entries es)
  | y => y

def rewrite_list : List Yaml → List Yaml
  | [] => []
  | y :: ys => rewrite_refs y :: rewrite_list ys

def rewrite_entries : List (String × Yaml) → List (String × Yaml)
  | [] => []
  | (k, v) :: es => (k, rewrite_refs v) :: rewrite_entries es

end

/-- Strip a literal prefix. -/
def dropLit (pre l : List Char) : Option (List Char) :=
  if pre.isPrefixOf l then some (l.drop pre.length) else none

/-- The lazy part of the pattern `fromJson\(\x27(\[.*?\])\x27\)`: collect
(non-newline) characters until the first `]\x27)`; fail at a newline or the
end of the text, making the regex engine retry from the next start. -/
def scanLazy (acc : List Char) : List Char → Option (List Char)
  | ']' :: '\x27' :: ')' :: _ => some acc.reverse
  | '\n' :: _ => none
  | c :: rest => scanLazy (c :: acc) rest
  | [] => none

/-- `re.search(r"fromJson\(\x27(\[.*?\])\x27\)", text)`: the first position
where the literal opener matches and the lazy scan closes yields the
bracketed capture. -/
def searchFromJson : List Char → Option (List Char)
  | [] => none
  | c :: rest =>
    match dropLit "fromJson(\x27[".data (c :: rest) with
    | some after =>
      match scanLazy [] after with
      | some mid => some ('[' :: (mid ++ [']']))
      | none => searchFromJson rest
    | none => searchFromJson rest

/-- `extract_security_gate(shim)` (src/scripts/compile.py lines 61–67):
pattern-match the allow-list out of the shim's `if` condition, falling back
to the conservative hardcoded default. -/
def extract_security_gate (shim : Config) : Except CompileError String :=
  match cGetMapOr shim "jobs" with
  | .error e => .error e
  | .ok jobs =>
  match cGetMapOr jobs "resolve" with
  | .error e => .error e
  | .ok rj =>
  match (match getVal rj "if" with
         | none => Except.ok ""
         | some (.str s) => .ok s
         | some _ => .error (CompileError.badValue "if")) with
  | .error e => .error e
  | .ok cond =>
    match searchFromJson cond.data with
    | some cap => .ok (String.mk cap)
    | none => .ok "[\"OWNER\",\"COLLABORATOR\",\"MEMBER\"]"

/-- `workflow["jobs"][job]["steps"]`. -/
def job_steps (workflow : Config) (job : String) : Except CompileError (List Yaml) :=
  match getVal workflow "jobs" with
  | none => .error (.missingKey "jobs")
  | some (.map jobs) =>
    match getVal jobs job with
    | none => .error (.missingKey job)
    | some (.map j) =>
      match getVal j "steps" with
      | none => .error (.missingKey "steps")
      | some (.seq steps) => .ok steps
      | some _ => .error (.badValue "steps")
    | some _ => .error (.badValue "job")
  | some _ => .error (.badValue "jobs")

/-- `build_base_job`'s gate condition (src/scripts/compile.py lines
210–220). -/
def build_job_if (security_roles trigger : String) : String :=
  "(github.event.issue || github.event.pull_request) && " ++
  "startsWith(github.event.comment.body, \x27" ++ trigger ++ "\x27) && " ++
  "contains(fromJson(\x27" ++ security_roles ++ "\x27), " ++
  "github.event.comment.author_association)"

/-- The synthesized "Generate app token" step (lines 256–265 / 366–376). -/
def appTokenStep : Config :=
  [("name", .str "Generate app token"),
   ("if", .str "vars.RDB_APP_ID != \x27\x27"),
   ("uses", .str "actions/create-github-app-token@v1"),
   ("id", .str "app-token"),
   ("with", .map [("app-id", .str "$\x7b\x7b vars.RDB_APP_ID \x7d\x7d"),
                  ("private-key", .str "$\x7b\x7b secrets.RDB_APP_PRIVATE_KEY \x7d\x7d")])]

/-- The synthesized "Checkout repository" step (lines 268–272 / 379–383). -/
def checkoutStep : Config :=
  [("name", .str "Checkout repository"),
   ("uses", .str "actions/checkout@v4"),
   ("with", .map [("token", .str tokenFallback)])]

/-- The synthesized "Parse config and model alias" step (lines 278–283 /
389–394); its `run` value is the emitted code whose interpolated
configuration is the artifact's `parse_settings`. -/
def parseStep : Config :=
  [("name", .str "Parse config and model alias"),
   ("id", .str "parse"),
   ("env", .map [("COMMENT", .str "$\x7b\x7b github.event.comment.body \x7d\x7d")])]

/-- A compiled artifact: trigger and permission metadata from the shim, the
single gated job and its ordered steps, and the configuration literals the
synthesized parsing step carries (`parse_settings`).  Header commentary and
textual formatting are presentation and not modelled. -/
structure Compiled where
  name : String
  triggers : Yaml
  permissions : Yaml
  job_name : String
  runs_on : String
  job_if : String
  parse_settings : InlineSettings
  steps : List Config

/-- Embeds `compile_resolve(shim, workflow, config_yaml, output_path)`
(src/scripts/compile.py lines 248–351), up to the point where the compiled
structure is serialized: same step selection, same synthesized steps, same
env rewrites, same cross-job reference rewrite, same failure order. -/
def compile_resolve (shim workflow config_yaml : Config) :
    Except CompileError Compiled :=
  match extract_security_gate shim with
  | .error e => .error e
  | .ok security_roles =>
  match job_steps workflow "resolve" with
  | .error e => .error e
  | .ok resolve_steps =>
  match find_step resolve_steps "Set up Python" with
  | .error e => .error e
  | .ok python_step =>
  match inline_config_parsing config_yaml "resolve" with
  | .error e => .error e
  | .ok inl =>
  match find_step resolve_steps "Determine API key" with
  | .error e => .error e
  | .ok key_step =>
  match job_steps workflow "parse" with
  | .error e => .error e
  | .ok parse_steps =>
  match find_step parse_steps "React to comment" with
  | .error e => .error e
  | .ok react0 =>
  match set_env react0 "GH_TOKEN" tokenFallback with
  | .error e => .error e
  | .ok react_step =>
  match find_step parse_steps "Assign commenter to issue" with
  | .error e => .error e
  | .ok assign0 =>
  match set_env assign0 "GH_TOKEN" tokenFallback with
  | .error e => .error e
  | .ok assign_step =>
  match find_step resolve_steps "Install OpenHands" with
  | .error e => .error e
  | .ok install_step =>
  match find_step resolve_steps "Inject security guardrails" with
  | .error e => .error e
  | .ok guard_step =>
  match find_step resolve_steps "Resolve issue" with
  | .error e => .error e
  | .ok resolve0 =>
  match strip_canary resolve0 with
  | .error e => .error e
  | .ok resolve1 =>
  match set_env resolve1 "GITHUB_TOKEN" tokenFallback with
  | .error e => .error e
  | .ok resolve_step =>
  match find_step resolve_steps "Create pull request" with
  | .error e => .error e
  | .ok pr0 =>
  match set_env pr0 "GITHUB_TOKEN" tokenFallback with
  | .error e => .error e
  | .ok pr_step =>
  match find_step resolve_steps "Amend commit with model info" with
  | .error e => .error e
  | .ok amend_step =>
  match find_step resolve_steps "Upload output artifact" with
  | .error e => .error e
  | .ok upload_step =>
  match find_step resolve_steps "Calculate and post cost" with
  | .error e => .error e
  | .ok cost0 =>
  match set_env cost0 "GH_TOKEN" tokenFallback with
  | .error e => .error e
  | .ok cost_step =>
  match getVal shim "on" with
  | none => .error (.missingKey "on")
  | some onY =>
  match getVal shim "permissions" with
  | none => .error (.missingKey "permissions")
  | some permsY =>
    let steps := [appTokenStep, checkoutStep, python_step, parseStep, key_step,
      react_step, assign_step, install_step, guard_step, resolve_step, pr_step,
      amend_step, upload_step, cost_step]
    .ok { name := "Remote Dev Bot — Resolve (Compiled)",
          triggers := onY, permissions := permsY,
          job_name := "resolve", runs_on := "ubuntu-latest",
          job_if := build_job_if security_roles "/agent-resolve",
          parse_settings := inl,
          steps := steps.map rewrite_entries }

/-- Escaping of the inlined `prompt_prefix` (src/scripts/compile.py line
423): backslash doubling, quote escaping, newline escaping — the three
sequential `replace` passes fused into one per-character pass, which they
equal. -/
def escPromptGo : List Char → List Char
  | [] => []
  | c :: rest =>
    if c = '\\' then '\\' :: '\\' :: escPromptGo rest
    else if c = '"' then '\\' :: '"' :: escPromptGo rest
    else if c = '\n' then '\\' :: 'n' :: escPromptGo rest
    else c :: escPromptGo rest

/-- The marker opening the config-loading block replaced in the LLM step. -/
def loadMarker : String := "# Load prompt_prefix from config"

/-- Distance to the end of the first occurrence of `"break\n"`. -/
def breakDist : List Char → Option Nat
  | [] => none
  | l@(_ :: rest) =>
    match dropLit "break\n".data l with
    | some _ => some 6
    | none => (breakDist rest).map (fun d => d + 1)

/-- Length of the `re.sub` match `# Load prompt_prefix from config.*?break\n`
(DOTALL, lazy) starting at this position, if any. -/
def loadBlockLen (l : List Char) : Option Nat :=
  match dropLit loadMarker.data l with
  | none => none
  | some after => (breakDist after).map (fun d => loadMarker.length + d)

/-- `re.sub` of the config-loading block by the inlined assignment: replace
every (non-overlapping, leftmost) match.  The doubled-backslash
`replacement_escaped` of the source (lines 430–431) exists only to undo
`re.sub`'s own escape processing; its net effect is the plain replacement
used here. -/
def subLoadGo (repl : List Char) : Nat → List Char → List Char
  | _, [] => []
  | n+1, _ :: rest => subLoadGo repl n rest
  | 0, l@(c :: rest) =>
    match loadBlockLen l with
    | some len => repl ++ subLoadGo repl (len - 1) rest
    | none => c :: subLoadGo repl 0 rest

/-- Python `repr` of the inlined `context_files` list (line 444).  The
repository's context files are plain paths without quotes or escapes; the
general string-escaping of `repr` is abbreviated. -/
def pyRepr : Yaml → String
  | .seq items =>
    "[" ++ String.intercalate ", "
      (items.map (fun y => match y with
        | .str v => "\x27" ++ v ++ "\x27"
        | _ => "?")) ++ "]"
  | _ => "?"

/-- The three textual rewrites applied to the LLM step's `run` value
(src/scripts/compile.py lines 426–448): the config-loading block replaced
by the inlined `prompt_prefix` assignment, the config-path line removed,
and the `CONTEXT_FILES` environment read replaced by the inlined literal
list. -/
def rewrite_llm_run (design_config : Config) (escaped run0 : String) : String :=
  let repl := ("prompt_prefix = \"" ++ escaped ++ "\"\n")
  let llm_run1 := String.mk (subLoadGo repl.data 0 run0.data)
  let llm_run2 := pyReplace llm_run1
    "config_path = \".remote-dev-bot/lib/../remote-dev-bot.yaml\"\n" ""
  let cfiles := (getVal design_config "context_files").getD (.seq [])
  pyReplace llm_run2
    "context_files = json.loads(os.environ.get(\"CONTEXT_FILES\", \"[]\") or \"[]\")"
    ("context_files = " ++ pyRepr cfiles)

/-- The conditional removal of the `CONTEXT_FILES` env var from the LLM
step (src/scripts/compile.py lines 450–452): a no-op when the step has no
env or the key is absent. -/
def strip_context_env (st : Config) : Except CompileError Config :=
  match getVal st "env" with
  | some (.map env) =>
    .ok (setVal st "env" (.map (env.filter (fun p => !(p.1 == "CONTEXT_FILES")))))
  | none => .ok st
  | some _ => .error (.badValue "env")

/-- Embeds `compile_design(shim, workflow, config_yaml, output_path)`
(src/scripts/compile.py lines 354–487) to the same depth as
`compile_resolve`. -/
def compile_design (shim workflow config_yaml : Config) :
    Except CompileError Compiled :=
  match extract_security_gate shim with
  | .error e => .error e
  | .ok security_roles =>
  match job_steps workflow "design" with
  | .error e => .error e
  | .ok design_steps =>
  match cGetMapOr config_yaml "modes" with
  | .error e => .error e
  | .ok modes_config =>
  match (match getVal modes_config "design" with
         | some (.map mc) => Except.ok mc
         | some _ => .error (CompileError.badValue "design_config")
         | none => .ok []) with
  | .error e => .error e
  | .ok design_config =>
  match find_step design_steps "Set up Python" with
  | .error e => .error e
  | .ok python_step =>
  match inline_config_parsing config_yaml "design" with
  | .error e => .error e
  | .ok inl =>
  match find_step design_steps "Determine API key" with
  | .error e => .error e
  | .ok key_step =>
  match job_steps workflow "parse" with
  | .error e => .error e
  | .ok parse_steps =>
  match find_step parse_steps "React to comment" with
  | .error e => .error e
  | .ok react0 =>
  match set_env react0 "GH_TOKEN" tokenFallback with
  | .error e => .error e
  | .ok react_step =>
  match find_step parse_steps "Assign commenter to issue" with
  | .error e => .error e
  | .ok assign0 =>
  match set_env assign0 "GH_TOKEN" tokenFallback with
  | .error e => .error e
  | .ok assign_step =>
  match find_step design_steps "Install dependencies" with
  | .error e => .error e
  | .ok deps_step =>
  match find_step design_steps "Gather issue context" with
  | .error e => .error e
  | .ok gather0 =>
  match set_env gather0 "GH_TOKEN" tokenFallback with
  | .error e => .error e
  | .ok gather_step =>
  match find_step design_steps "Call LLM for design analysis" with
  | .error e => .error e
  | .ok llm0 =>
  match (let promptY := (getVal design_config "prompt_prefix").getD (.str "")
         if pyTruthy promptY = false then Except.ok ""
         else match promptY with
              | .str p => .ok (String.mk (escPromptGo p.data))
              | _ => .error (CompileError.badValue "prompt_prefix")) with
  | .error e => .error e
  | .ok escaped =>
  match (match getVal llm0 "run" with
         | none => Except.ok ""
         | some (.str s) => .ok s
         | some _ => .error (CompileError.badValue "run")) with
  | .error e => .error e
  | .ok llm_run0 =>
  match strip_context_env
      (setVal llm0 "run" (.str (rewrite_llm_run design_config escaped llm_run0))) with
  | .error e => .error e
  | .ok llm_step =>
  match find_step design_steps "Post comment" with
  | .error e => .error e
  | .ok post0 =>
  match set_env post0 "GH_TOKEN" tokenFallback with
  | .error e => .error e
  | .ok post_step =>
  match find_step design_steps "Post cost comment" with
  | .error e => .error e
  | .ok cost0 =>
  match set_env cost0 "GH_TOKEN" tokenFallback with
  | .error e => .error e
  | .ok cost_step =>
  match getVal shim "on" with
  | none => .error (.missingKey "on")
  | some onY =>
  match getVal shim "permissions" with
  | none => .error (.missingKey "permissions")
  | some permsY =>
    let steps := [appTokenStep, checkoutStep, python_step, parseStep, key_step,
      react_step, assign_step, deps_step, gather_step, llm_step, post_step, cost_step]
    .ok { name := "Remote Dev Bot — Design (Compiled)",
          triggers := onY, permissions := permsY,
          job_name := "design", runs_on := "ubuntu-latest",
          job_if := build_job_if security_roles "/agent-design",
          parse_settings := inl,
          steps := steps.map rewrite_entries }


/-! ### Claim theorem C8 -/

/-- A configuration with no `openhands.version` pin: both resolver and
compiler must fall back to their documented default. -/
def c8cfg : Config :=
  [("default_model", .str "m"),
   ("models", .map [("m", .map [("id", .str "anthropic/test")])]),
   ("modes", .map [("resolve", .map [("action", .str "pr")])])]

/-- **C8.**  The run-time resolver and the compiler disagree on the
runtime-version default: on a configuration without `openhands.version`,
`resolve_config` reports `oh_version = "0.39.0"` while
`inline_config_parsing` inlines `OH_VERSION = "1.3.0"` — despite the
compiler's own `NOTE: keep this default in sync with lib/config.py
resolve_config()`.  The other shared settings (default model chain,
iteration budget, PR style) do agree on this input. -/
theorem c8_version_default_mismatch :
    resultGet (resolve_config (some c8cfg) none none "resolve") "oh_version" =
      some (.str "0.39.0") ∧
    (inline_config_parsing c8cfg "resolve").map InlineSettings.oh_version =
      .ok (.str "1.3.0") ∧
    ("0.39.0" : String) ≠ "1.3.0" ∧
    resultGet (resolve_config (some c8cfg) none none "resolve") "max_iterations" =
      some (.int 50) ∧
    (inline_config_parsing c8cfg "resolve").map InlineSettings.max_iterations =
      .ok (.int 50) ∧
    resultGet (resolve_config (some c8cfg) none none "resolve") "pr_type" =
      some (.str "ready") ∧
    (inline_config_parsing c8cfg "resolve").map InlineSettings.pr_type =
      .ok (.str "ready") ∧
    resultGet (resolve_config (some c8cfg) none none "resolve") "alias" =
      some (.str "m") ∧
    (inline_config_parsing c8cfg "resolve").map InlineSettings.default_model =
      .ok (.str "m") := by
  exact ⟨rfl, rfl, by decide, rfl, rfl, rfl, rfl, rfl, rfl⟩

/-! ### Claim theorem C9: step-sequence tripwire -/

/-- The ordered step names of the compiled resolve artifact. -/
def expectedResolveNames : List String :=
  ["Generate app token", "Checkout repository", "Set up Python",
   "Parse config and model alias", "Determine API key", "React to comment",
   "Assign commenter to issue", "Install OpenHands", "Inject security guardrails",
   "Resolve issue", "Create pull request", "Amend commit with model info",
   "Upload output artifact", "Calculate and post cost"]

/-- The ordered step names of the compiled design artifact. -/
def expectedDesignNames : List String :=
  ["Generate app token", "Checkout repository", "Set up Python",
   "Parse config and model alias", "Determine API key", "React to comment",
   "Assign commenter to issue", "Install dependencies", "Gather issue context",
   "Call LLM for design analysis", "Post comment", "Post cost comment"]

/-- The names `compile_resolve` selects out of the generic resolve job. -/
def resolveJobNames : List String :=
  ["Set up Python", "Determine API key", "Install OpenHands",
   "Inject security guardrails", "Resolve issue", "Create pull request",
   "Amend commit with model info", "Upload output artifact", "Calculate and post cost"]

/-- The names both compilers select out of the generic parse job. -/
def parseJobNames : List String := ["React to comment", "Assign commenter to issue"]

/-- The names `compile_design` selects out of the generic design job. -/
def designJobNames : List String :=
  ["Set up Python", "Determine API key", "Install dependencies",
   "Gather issue context", "Call LLM for design analysis", "Post comment",
   "Post cost comment"]

def step_name (st : Config) : Option String :=
  match getVal st "name" with
  | some (.str n) => some n
  | _ => none

/-- A job's step list carries a step of the given name. -/
def has_step (steps : List Yaml) (n : String) : Prop :=
  ∃ stm, Yaml.map stm ∈ steps ∧ step_has_name stm n = true

theorem step_has_name_eq {st : Config} {n : String} (h : step_has_name st n = true) :
    getVal st "name" = some (.str n) := by
  unfold step_has_name at h
  cases hg : getVal st "name" with
  | none => rw [hg] at h; exact nomatch h
  | some y =>
    rw [hg] at h
    cases y with
    | str v =>
      obtain rfl : v = n := by simpa using h
      rfl
    | int v => exact nomatch h
    | bool v => exact nomatch h
    | null => exact nomatch h
    | seq v => exact nomatch h
    | map v => exact nomatch h

theorem find_step_ok (steps : List Yaml) (n : String) (st : Config)
    (h : find_step steps n = .ok st) :
    getVal st "name" = some (.str n) ∧ has_step steps n := by
  induction steps with
  | nil => exact nomatch h
  | cons y rest ih =>
    cases y with
    | map stm =>
      simp only [find_step] at h
      by_cases hn : step_has_name stm n = true
      · rw [if_pos hn] at h
        obtain rfl : stm = st := by injection h
        exact ⟨step_has_name_eq hn, _, List.mem_cons_self _ _, hn⟩
      · rw [if_neg hn] at h
        obtain ⟨h1, stm', hm, hs⟩ := ih h
        exact ⟨h1, stm', List.mem_cons_of_mem _ hm, hs⟩
    | str v => exact nomatch h
    | int v => exact nomatch h
    | bool v => exact nomatch h
    | null => exact nomatch h
    | seq v => exact nomatch h

theorem set_env_name {st st' : Config} {k v : String}
    (h : set_env st k v = .ok st') : getVal st' "name" = getVal st "name" := by
  unfold set_env at h
  cases hg : getVal st "env" with
  | none => rw [hg] at h; exact nomatch h
  | some y =>
    rw [hg] at h
    cases y with
    | map env =>
      obtain rfl : _ = st' := by injection h
      exact getVal_setVal_ne st "env" "name" _ (by decide)
    | str w => exact nomatch h
    | int w => exact nomatch h
    | bool w => exact nomatch h
    | null => exact nomatch h
    | seq w => exact nomatch h

theorem strip_canary_name {st st' : Config}
    (h : strip_canary st = .ok st') : getVal st' "name" = getVal st "name" := by
  unfold strip_canary at h
  cases hg : getVal st "env" with
  | none => rw [hg] at h; exact nomatch h
  | some y =>
    rw [hg] at h
    cases y with
    | map env =>
      obtain rfl : _ = st' := by injection h
      exact getVal_setVal_ne st "env" "name" _ (by decide)
    | str w => exact nomatch h
    | int w => exact nomatch h
    | bool w => exact nomatch h
    | null => exact nomatch h
    | seq w => exact nomatch h

theorem rewrite_entries_getVal (es : List (String × Yaml)) (k : String) :
    getVal (rewrite_entries es) k = (getVal es k).map rewrite_refs := by
  induction es with
  | nil => rfl
  | cons p rest ih =>
    obtain ⟨k', v⟩ := p
    by_cases hk : k' = k
    · simp [rewrite_entries, getVal, hk]
    · simp [rewrite_entries, getVal, hk, ih]

/-- The rewrite pass keeps a step's name when the cross-job pattern does not
occur in it. -/
theorem step_name_rewrite {st : Config} {n : String}
    (h : getVal st "name" = some (.str n)) (hr : rewrite_str n = n) :
    step_name (rewrite_entries st) = some n := by
  unfold step_name
  rw [rewrite_entries_getVal, h]
  simp [rewrite_refs, hr]


theorem strip_context_env_name {st st' : Config}
    (h : strip_context_env st = .ok st') : getVal st' "name" = getVal st "name" := by
  unfold strip_context_env at h
  cases hg : getVal st "env" with
  | none =>
    rw [hg] at h
    obtain rfl : st = st' := by injection h
    rfl
  | some y =>
    rw [hg] at h
    cases y with
    | map env =>
      obtain rfl : _ = st' := by injection h
      exact getVal_setVal_ne st "env" "name" _ (by decide)
    | str w => exact nomatch h
    | int w => exact nomatch h
    | bool w => exact nomatch h
    | null => exact nomatch h
    | seq w => exact nomatch h

/-- Success inversion of `compile_resolve`: the artifact's step-name
sequence is the fixed expected list, and every name-indexed lookup the
compiler performed found its step in the respective generic job. -/
theorem compile_resolve_ok_inv (shim wf cfg : Config) (art : Compiled)
    (h : compile_resolve shim wf cfg = .ok art) :
    art.steps.map step_name = expectedResolveNames.map some ∧
    ∃ rss pss, job_steps wf "resolve" = .ok rss ∧ job_steps wf "parse" = .ok pss ∧
      (∀ n ∈ resolveJobNames, has_step rss n) ∧
      (∀ n ∈ parseJobNames, has_step pss n) := by
  rw [compile_resolve] at h
  split at h
  · exact nomatch h
  next sg hsg =>
  split at h
  · exact nomatch h
  next rss hrs =>
  split at h
  · exact nomatch h
  next python_step hpy =>
  split at h
  · exact nomatch h
  next inl hinl =>
  split at h
  · exact nomatch h
  next key_step hkey =>
  split at h
  · exact nomatch h
  next pss hps =>
  split at h
  · exact nomatch h
  next react0 hre0 =>
  split at h
  · exact nomatch h
  next react_step hre1 =>
  split at h
  · exact nomatch h
  next assign0 has0 =>
  split at h
  · exact nomatch h
  next assign_step has1 =>
  split at h
  · exact nomatch h
  next install_step hin =>
  split at h
  · exact nomatch h
  next guard_step hgu =>
  split at h
  · exact nomatch h
  next resolve0 hrz0 =>
  split at h
  · exact nomatch h
  next resolve1 hrz1 =>
  split at h
  · exact nomatch h
  next resolve_step hrz2 =>
  split at h
  · exact nomatch h
  next pr0 hpr0 =>
  split at h
  · exact nomatch h
  next pr_step hpr1 =>
  split at h
  · exact nomatch h
  next amend_step ham =>
  split at h
  · exact nomatch h
  next upload_step hup =>
  split at h
  · exact nomatch h
  next cost0 hco0 =>
  split at h
  · exact nomatch h
  next cost_step hco1 =>
  split at h
  · exact nomatch h
  next onY hon =>
  split at h
  · exact nomatch h
  next permsY hpm =>
  obtain rfl : _ = art := by injection h
  constructor
  · have e1 : step_name (rewrite_entries appTokenStep) = some "Generate app token" := by decide
    have e2 : step_name (rewrite_entries checkoutStep) = some "Checkout repository" := by decide
    have e4 : step_name (rewrite_entries parseStep) =
        some "Parse config and model alias" := by decide
    have e3 := step_name_rewrite (find_step_ok _ _ _ hpy).1 (by decide)
    have e5 := step_name_rewrite (find_step_ok _ _ _ hkey).1 (by decide)
    have e6 := step_name_rewrite
      ((set_env_name hre1).trans (find_step_ok _ _ _ hre0).1) (by decide)
    have e7 := step_name_rewrite
      ((set_env_name has1).trans (find_step_ok _ _ _ has0).1) (by decide)
    have e8 := step_name_rewrite (find_step_ok _ _ _ hin).1 (by decide)
    have e9 := step_name_rewrite (find_step_ok _ _ _ hgu).1 (by decide)
    have e10 := step_name_rewrite
      ((set_env_name hrz2).trans ((strip_canary_name hrz1).trans
        (find_step_ok _ _ _ hrz0).1)) (by decide)
    have e11 := step_name_rewrite
      ((set_env_name hpr1).trans (find_step_ok _ _ _ hpr0).1) (by decide)
    have e12 := step_name_rewrite (find_step_ok _ _ _ ham).1 (by decide)
    have e13 := step_name_rewrite (find_step_ok _ _ _ hup).1 (by decide)
    have e14 := step_name_rewrite
      ((set_env_name hco1).trans (find_step_ok _ _ _ hco0).1) (by decide)
    simp only [List.map_cons, List.map_nil, expectedResolveNames,
      e1, e2, e3, e4, e5, e6, e7, e8, e9, e10, e11, e12, e13, e14]
  · refine ⟨rss, pss, hrs, hps, ?_, ?_⟩
    · intro n hn
      simp only [resolveJobNames, List.mem_cons, List.mem_singleton,
        List.not_mem_nil, or_false] at hn
      rcases hn with rfl | rfl | rfl | rfl | rfl | rfl | rfl | rfl | rfl
      exacts [(find_step_ok _ _ _ hpy).2, (find_step_ok _ _ _ hkey).2,
        (find_step_ok _ _ _ hin).2, (find_step_ok _ _ _ hgu).2,
        (find_step_ok _ _ _ hrz0).2, (find_step_ok _ _ _ hpr0).2,
        (find_step_ok _ _ _ ham).2, (find_step_ok _ _ _ hup).2,
        (find_step_ok _ _ _ hco0).2]
    · intro n hn
      simp only [parseJobNames, List.mem_cons, List.mem_singleton,
        List.not_mem_nil, or_false] at hn
      rcases hn with rfl | rfl
      exacts [(find_step_ok _ _ _ hre0).2, (find_step_ok _ _ _ has0).2]


/-- Success inversion of `compile_design`, as for `compile_resolve`. -/
theorem compile_design_ok_inv (shim wf cfg : Config) (art : Compiled)
    (h : compile_design shim wf cfg = .ok art) :
    art.steps.map step_name = expectedDesignNames.map some ∧
    ∃ dss pss, job_steps wf "design" = .ok dss ∧ job_steps wf "parse" = .ok pss ∧
      (∀ n ∈ designJobNames, has_step dss n) ∧
      (∀ n ∈ parseJobNames, has_step pss n) := by
  rw [compile_design] at h
  split at h
  · exact nomatch h
  next sg hsg =>
  split at h
  · exact nomatch h
  next dss hds =>
  split at h
  · exact nomatch h
  next modes_config hmo =>
  split at h
  · exact nomatch h
  next design_config hdc =>
  split at h
  · exact nomatch h
  next python_step hpy =>
  split at h
  · exact nomatch h
  next inl hinl =>
  split at h
  · exact nomatch h
  next key_step hkey =>
  split at h
  · exact nomatch h
  next pss hps =>
  split at h
  · exact nomatch h
  next react0 hre0 =>
  split at h
  · exact nomatch h
  next react_step hre1 =>
  split at h
  · exact nomatch h
  next assign0 has0 =>
  split at h
  · exact nomatch h
  next assign_step has1 =>
  split at h
  · exact nomatch h
  next deps_step hdeps =>
  split at h
  · exact nomatch h
  next gather0 hga0 =>
  split at h
  · exact nomatch h
  next gather_step hga1 =>
  split at h
  · exact nomatch h
  next llm0 hll0 =>
  split at h
  · exact nomatch h
  next escaped hesc =>
  split at h
  · exact nomatch h
  next llm_run0 hrun =>
  split at h
  · exact nomatch h
  next llm_step henv =>
  split at h
  · exact nomatch h
  next post0 hpo0 =>
  split at h
  · exact nomatch h
  next post_step hpo1 =>
  split at h
  · exact nomatch h
  next costd0 hcc0 =>
  split at h
  · exact nomatch h
  next cost_step hcc1 =>
  split at h
  · exact nomatch h
  next onY hon =>
  split at h
  · exact nomatch h
  next permsY hpm =>
  obtain rfl : _ = art := by injection h
  constructor
  · have e1 : step_name (rewrite_entries appTokenStep) = some "Generate app token" := by decide
    have e2 : step_name (rewrite_entries checkoutStep) = some "Checkout repository" := by decide
    have e4 : step_name (rewrite_entries parseStep) =
        some "Parse config and model alias" := by decide
    have e3 := step_name_rewrite (find_step_ok _ _ _ hpy).1 (by decide)
    have e5 := step_name_rewrite (find_step_ok _ _ _ hkey).1 (by decide)
    have e6 := step_name_rewrite
      ((set_env_name hre1).trans (find_step_ok _ _ _ hre0).1) (by decide)
    have e7 := step_name_rewrite
      ((set_env_name has1).trans (find_step_ok _ _ _ has0).1) (by decide)
    have e8 := step_name_rewrite (find_step_ok _ _ _ hdeps).1 (by decide)
    have e9 := step_name_rewrite
      ((set_env_name hga1).trans (find_step_ok _ _ _ hga0).1) (by decide)
    have e10 := step_name_rewrite
      ((strip_context_env_name henv).trans
        ((getVal_setVal_ne llm0 "run" "name" _ (by decide)).trans
          (find_step_ok _ _ _ hll0).1)) (by decide)
    have e11 := step_name_rewrite
      ((set_env_name hpo1).trans (find_step_ok _ _ _ hpo0).1) (by decide)
    have e12 := step_name_rewrite
      ((set_env_name hcc1).trans (find_step_ok _ _ _ hcc0).1) (by decide)
    simp only [List.map_cons, List.map_nil, expectedDesignNames,
      e1, e2, e3, e4, e5, e6, e7, e8, e9, e10, e11, e12]
  · refine ⟨dss, pss, hds, hps, ?_, ?_⟩
    · intro n hn
      simp only [designJobNames, List.mem_cons, List.mem_singleton,
        List.not_mem_nil, or_false] at hn
      rcases hn with rfl | rfl | rfl | rfl | rfl | rfl | rfl
      exacts [(find_step_ok _ _ _ hpy).2, (find_step_ok _ _ _ hkey).2,
        (find_step_ok _ _ _ hdeps).2, (find_step_ok _ _ _ hga0).2,
        (find_step_ok _ _ _ hll0).2, (find_step_ok _ _ _ hpo0).2,
        (find_step_ok _ _ _ hcc0).2]
    · intro n hn
      simp only [parseJobNames, List.mem_cons, List.mem_singleton,
        List.not_mem_nil, or_false] at hn
      rcases hn with rfl | rfl
      exacts [(find_step_ok _ _ _ hre0).2, (find_step_ok _ _ _ has0).2]


/-! ### C9 fixtures: a concrete shim, generic workflow and configuration -/

def c9shim : Config :=
  [("on", .map [("issue_comment", .map [("types", .seq [.str "created"])]),
                ("pull_request_review_comment", .map [("types", .seq [.str "created"])])]),
   ("permissions", .map [("contents", .str "write"), ("issues", .str "write"),
                         ("pull-requests", .str "write")]),
   ("jobs", .map [("resolve", .map [("if", .str
      "contains(fromJson(\x27[\"OWNER\",\"COLLABORATOR\",\"MEMBER\"]\x27), github.event.comment.author_association)")])])]

def c9parseSteps : List Yaml :=
  [.map [("name", .str "React to comment"), ("env", .map [("GH_TOKEN", .str "t")])],
   .map [("name", .str "Assign commenter to issue"), ("env", .map [("GH_TOKEN", .str "t")])]]

def c9resolveSteps : List Yaml :=
  [.map [("name", .str "Set up Python"), ("uses", .str "actions/setup-python@v5")],
   .map [("name", .str "Determine API key"), ("run", .str "echo key")],
   .map [("name", .str "Install OpenHands"),
         ("run", .str "pip install openhands-ai==$\x7b\x7b needs.parse.outputs.oh_version \x7d\x7d")],
   .map [("name", .str "Inject security guardrails"), ("run", .str "echo rules")],
   .map [("name", .str "Resolve issue"), ("run", .str "run-resolver"),
         ("env", .map [("GITHUB_TOKEN", .str "t"),
                       ("SANDBOX_ENV_E2E_TEST_TOKEN", .str "canary")])],
   .map [("name", .str "Create pull request"), ("run", .str "open-pr"),
         ("env", .map [("GITHUB_TOKEN", .str "t")])],
   .map [("name", .str "Amend commit with model info"), ("run", .str "amend")],
   .map [("name", .str "Upload output artifact"), ("uses", .str "actions/upload-artifact@v4")],
   .map [("name", .str "Calculate and post cost"), ("run", .str "cost"),
         ("env", .map [("GH_TOKEN", .str "t")])]]

def c9designSteps : List Yaml :=
  [.map [("name", .str "Set up Python"), ("uses", .str "actions/setup-python@v5")],
   .map [("name", .str "Determine API key"), ("run", .str "echo key")],
   .map [("name", .str "Install dependencies"), ("run", .str "pip install pyyaml litellm")],
   .map [("name", .str "Gather issue context"), ("env", .map [("GH_TOKEN", .str "t")])],
   .map [("name", .str "Call LLM for design analysis"), ("run", .str "python3 analyze.py"),
         ("env", .map [("CONTEXT_FILES", .str "[]"), ("GH_TOKEN", .str "t")])],
   .map [("name", .str "Post comment"), ("env", .map [("GH_TOKEN", .str "t")])],
   .map [("name", .str "Post cost comment"), ("env", .map [("GH_TOKEN", .str "t")])]]

def c9wf : Config :=
  [("jobs", .map [("parse", .map [("steps", .seq c9parseSteps)]),
                  ("resolve", .map [("steps", .seq c9resolveSteps)]),
                  ("design", .map [("steps", .seq c9designSteps)])])]

def c9cfg : Config :=
  [("default_model", .str "claude-small"),
   ("models", .map [("claude-small", .map [("id", .str "anthropic/claude-sonnet-4-5")])]),
   ("modes", .map [("resolve", .map [("action", .str "pr")]),
                   ("design", .map [("action", .str "comment"),
                                    ("prompt_prefix", .str "You are analyzing this issue."),
                                    ("context_files", .seq [.str "README.md"])])])]

/-- `c9wf` with the "Resolve issue" step removed from the generic
definition. -/
def c9wfNoResolve : Config :=
  [("jobs", .map [("parse", .map [("steps", .seq c9parseSteps)]),
                  ("resolve", .map [("steps", .seq (c9resolveSteps.filter (fun y =>
                    match y with
                    | .map st => !(step_has_name st "Resolve issue")
                    | _ => true)))]),
                  ("design", .map [("steps", .seq c9designSteps)])])]

/-- `c9wf` with the "Call LLM for design analysis" step removed. -/
def c9wfNoLlm : Config :=
  [("jobs", .map [("parse", .map [("steps", .seq c9parseSteps)]),
                  ("resolve", .map [("steps", .seq c9resolveSteps)]),
                  ("design", .map [("steps", .seq (c9designSteps.filter (fun y =>
                    match y with
                    | .map st => !(step_has_name st "Call LLM for design analysis")
                    | _ => true)))])])]

/-- **C9.**  Whenever compilation succeeds, the compiled artifact's ordered
step-name sequence is exactly the fixed hardcoded list, for each mode; a
generic-job step that the compiler selects by name but that is absent
(renamed or removed) makes compilation fail — with the "step not found"
error naming the step, as the two concrete removed-step runs show. -/
theorem c9_step_tripwire :
    (∀ (shim wf cfg : Config) (art : Compiled), compile_resolve shim wf cfg = .ok art →
       art.steps.map step_name = expectedResolveNames.map some) ∧
    (∀ (shim wf cfg : Config) (art : Compiled), compile_design shim wf cfg = .ok art →
       art.steps.map step_name = expectedDesignNames.map some) ∧
    (∀ (shim wf cfg : Config) (art : Compiled) (rss : List Yaml) (n : String),
       n ∈ resolveJobNames → job_steps wf "resolve" = .ok rss → ¬ has_step rss n →
       compile_resolve shim wf cfg ≠ .ok art) ∧
    (∀ (shim wf cfg : Config) (art : Compiled) (dss : List Yaml) (n : String),
       n ∈ designJobNames → job_steps wf "design" = .ok dss → ¬ has_step dss n →
       compile_design shim wf cfg ≠ .ok art) ∧
    (∀ (shim wf cfg : Config) (art : Compiled) (pss : List Yaml) (n : String),
       n ∈ parseJobNames → job_steps wf "parse" = .ok pss → ¬ has_step pss n →
       compile_resolve shim wf cfg ≠ .ok art ∧ compile_design shim wf cfg ≠ .ok art) ∧
    compile_resolve c9shim c9wfNoResolve c9cfg = .error (.stepNotFound "Resolve issue") ∧
    compile_design c9shim c9wfNoLlm c9cfg =
      .error (.stepNotFound "Call LLM for design analysis") := by
  refine ⟨?_, ?_, ?_, ?_, ?_, rfl, rfl⟩
  · intro shim wf cfg art h
    exact (compile_resolve_ok_inv shim wf cfg art h).1
  · intro shim wf cfg art h
    exact (compile_design_ok_inv shim wf cfg art h).1
  · intro shim wf cfg art rss n hn hjs habs h
    obtain ⟨-, rss', pss', hrs', -, hall, -⟩ := compile_resolve_ok_inv shim wf cfg art h
    obtain rfl : rss' = rss := by
      have := hrs'.symm.trans hjs
      injection this
    exact habs (hall n hn)
  · intro shim wf cfg art dss n hn hjs habs h
    obtain ⟨-, dss', pss', hds', -, hall, -⟩ := compile_design_ok_inv shim wf cfg art h
    obtain rfl : dss' = dss := by
      have := hds'.symm.trans hjs
      injection this
    exact habs (hall n hn)
  · intro shim wf cfg art pss n hn hjs habs
    constructor
    · intro h
      obtain ⟨-, rss', pss', -, hps', -, hall⟩ := compile_resolve_ok_inv shim wf cfg art h
      obtain rfl : pss' = pss := by
        have := hps'.symm.trans hjs
        injection this
      exact habs (hall n hn)
    · intro h
      obtain ⟨-, dss', pss', -, hps', -, hall⟩ := compile_design_ok_inv shim wf cfg art h
      obtain rfl : pss' = pss := by
        have := hps'.symm.trans hjs
        injection this
      exact habs (hall n hn)

def isOkE {ε α : Type} : Except ε α → Bool
  | .ok _ => true
  | .error _ => false

/-- **C9, witness.** -/
theorem c9_step_tripwire_witness :
    (compile_resolve c9shim c9wf c9cfg).map (fun a => a.steps.map step_name) =
      .ok (expectedResolveNames.map some) ∧
    (compile_design c9shim c9wf c9cfg).map (fun a => a.steps.map step_name) =
      .ok (expectedDesignNames.map some) := by
  constructor
  · cases hc : compile_resolve c9shim c9wf c9cfg with
    | error e =>
      have hk : isOkE (compile_resolve c9shim c9wf c9cfg) = true := rfl
      rw [hc] at hk
      exact nomatch hk
    | ok a =>
      simp only [Except.map]
      exact congrArg Except.ok (c9_step_tripwire.1 c9shim c9wf c9cfg a hc)
  · cases hc : compile_design c9shim c9wf c9cfg with
    | error e =>
      have hk : isOkE (compile_design c9shim c9wf c9cfg) = true := rfl
      rw [hc] at hk
      exact nomatch hk
    | ok a =>
      simp only [Except.map]
      exact congrArg Except.ok (c9_step_tripwire.2.1 c9shim c9wf c9cfg a hc)

end RDB
